import Mathlib

set_option maxRecDepth 8000
set_option linter.unusedSectionVars false
set_option linter.unnecessarySeqFocus false
set_option linter.unusedVariables false

/-!
Verification development for the ChainX asset ledger and bitcoin bridge.

The definitions below are shallow embeddings of the Rust modules:
* `XAssets` embeds `xrml/xassets/assets/src/lib.rs` (the multi-asset ledger);
* `CBtc` embeds `cxrml/bridge/btc/src/blockchain.rs` and `cxrml/bridge/btc/src/tx/mod.rs`
  (the old header chain and UTXO tracker);
* `XBtc` embeds `xrml/xbridge/bitcoin/src/tx/handler.rs` and
  `xrml/xbridge/bitcoin/src/tx/proposal.rs` (deposit/withdraw handling and the
  withdrawal proposal builder).

Machine integers (`u64` balances) are modelled as `Nat` with explicit bound
checks mirroring the `checked_add` / `checked_sub` calls of the source; storage
maps become total functions with the get-or-default semantics of the storage
layer; storage writes become state transitions, and fallible operations return
the untouched state together with the error exactly where the source returns.
-/

namespace XAssets

/-- Token symbols are byte vectors (`Token = Vec<u8>` in the source). -/
abbrev Token := List Nat

/-- The native token symbol, `b"PCX"` (`<Module as ChainT>::TOKEN`). -/
def pcxToken : Token := [80, 67, 88]

/-- Nat partitions of an account and token (`AssetType`). -/
inductive AssetType
  | Free
  | ReservedStaking
  | ReservedStakingRevocation
  | ReservedWithdrawal
  | ReservedDexSpot
  | ReservedDexFuture
deriving DecidableEq, Fintype, Repr

/-- Error kinds of the ledger (`AssetErr`). -/
inductive AssetErr
  | NotEnough
  | OverFlow
  | TotalAssetOverFlow
  | TotalAssetNotEnough
  | InvalidToken
  | InvalidAccount
deriving DecidableEq, Repr

/-- The user-facing message of each error (`AssetErr::info`). -/
def AssetErr.info : AssetErr → String
  | .NotEnough => "balance too low for this account"
  | .OverFlow => "balance too high for this account"
  | .TotalAssetOverFlow => "balance too low for this asset"
  | .TotalAssetNotEnough => "balance too high for this asset"
  | .InvalidToken => "not a valid token for this account"
  | .InvalidAccount => "account Locked"

/- Balances are `u64` in the source, modelled as `Nat` with explicit bound
checks; `u64Max` is the overflow threshold. -/

/-- Largest `u64` value. -/
def u64Max : Nat := 18446744073709551615

/-- `u64::checked_add`. -/
def checkedAdd (a b : Nat) : Option Nat :=
  if a + b ≤ u64Max then some (a + b) else none

/-- `u64::checked_sub`. -/
def checkedSub (a b : Nat) : Option Nat :=
  if b ≤ a then some (a - b) else none

/-- Wrapping `u64` subtraction (release-mode Rust `-`), used by the one unchecked
subtraction in `total_asset_balance`. -/
def u64WrapSub (a b : Nat) : Nat :=
  (a + (u64Max + 1) - b % (u64Max + 1)) % (u64Max + 1)

/-- Ledger events (`RawEvent`); the source misspelling `Destory` is kept. -/
inductive XEvent (Account : Type)
  | Move (token : Token) (frm : Account) (from_type : AssetType)
      (dst : Account) (to_type : AssetType) (value : Nat)
  | Issue (token : Token) (who : Account) (value : Nat)
  | Destory (token : Token) (who : Account) (value : Nat)
  | Set (token : Token) (who : Account) (type_ : AssetType) (value : Nat)

/-- The storage touched by the ledger operations.  `assetBalance` and
`totalAssetBalance` model the `AssetBalance` / `TotalAssetBalance` maps with the
get-or-zero semantics of `CodecBTreeMap` lookups; `freeBalance`,
`freeBalanceExists` and `totalIssuance` model the external `srml-balances`
collaborator; `assetInfo` keeps the validity flag of `AssetInfo` (the `Asset`
payload and registration height are never read by the operations embedded
here); `memoLen` is the `MemoLen` configuration. -/
structure State (Account : Type) where
  assetBalance : Account → Token → AssetType → Nat
  totalAssetBalance : Token → AssetType → Nat
  freeBalance : Account → Nat
  freeBalanceExists : Account → Bool
  totalIssuance : Nat
  assetInfo : Token → Option Bool
  memoLen : Nat
  events : List (XEvent Account)

variable {Account : Type} [DecidableEq Account]

/-- `Module::deposit_event`. -/
def deposit_event (s : State Account) (e : XEvent Account) : State Account :=
  { s with events := s.events ++ [e] }

/-- `Module::asset_balance`: the native Free balance aliases the system
balances module; anything else reads the generic map. -/
def asset_balance (s : State Account) (who : Account) (token : Token)
    (type_ : AssetType) : Nat :=
  if token = pcxToken ∧ type_ = AssetType.Free then s.freeBalance who
  else s.assetBalance who token type_

/-- `Module::set_asset_balance`. -/
def set_asset_balance (s : State Account) (who : Account) (token : Token)
    (type_ : AssetType) (val : Nat) : State Account :=
  if token = pcxToken ∧ type_ = AssetType.Free then
    { s with freeBalance := Function.update s.freeBalance who val }
  else
    { s with assetBalance := fun a t ty =>
        if a = who ∧ t = token ∧ ty = type_ then val else s.assetBalance a t ty }

/-- `Module::free_balance`. -/
def free_balance (s : State Account) (who : Account) (token : Token) : Nat :=
  asset_balance s who token AssetType.Free

/-- `balances::Module::set_free_balance` (external `srml-balances` collaborator). -/
def balances_set_free_balance (s : State Account) (who : Account) (val : Nat) :
    State Account :=
  { s with freeBalance := Function.update s.freeBalance who val }

/-- `balances::Module::set_free_balance_creating` (external collaborator): also
marks the account entry as existing.  The existential-deposit bookkeeping of the
external module is outside this repository and is not modelled further. -/
def balances_set_free_balance_creating (s : State Account) (who : Account)
    (val : Nat) : State Account :=
  { s with freeBalance := Function.update s.freeBalance who val,
           freeBalanceExists := Function.update s.freeBalanceExists who true }

/-- `Module::set_free_balance_creating`. -/
def set_free_balance_creating (s : State Account) (who : Account) (token : Token)
    (value : Nat) : State Account :=
  let is_existing := s.freeBalanceExists who
  if token = pcxToken then
    if is_existing then balances_set_free_balance s who value
    else balances_set_free_balance_creating s who value
  else
    let s1 := if is_existing = false then balances_set_free_balance_creating s who 0 else s
    set_asset_balance s1 who token AssetType.Free value

/-- Sum of the non-Free entries of `TotalAssetBalance[PCX]` (the fold inside
`total_asset_balance`; absent map entries contribute zero either way). -/
def pcx_nonfree_total (s : State Account) : Nat :=
  (Finset.univ.filter fun ty => ty ≠ AssetType.Free).sum
    fun ty => s.totalAssetBalance pcxToken ty

/-- `Module::total_asset_balance`: Total-Free of the native token is derived
from `TotalIssuance` minus the non-Free totals (an unchecked `u64` subtraction
in the source, hence `u64WrapSub` here); everything else reads the map. -/
def total_asset_balance (s : State Account) (token : Token) (type_ : AssetType) :
    Nat :=
  if token = pcxToken ∧ type_ = AssetType.Free then
    u64WrapSub s.totalIssuance (pcx_nonfree_total s)
  else s.totalAssetBalance token type_

/-- `Module::set_total_asset_balance`: writing Total-Free of the native token
does nothing. -/
def set_total_asset_balance (s : State Account) (token : Token) (type_ : AssetType)
    (value : Nat) : State Account :=
  if token = pcxToken ∧ type_ = AssetType.Free then s
  else
    { s with totalAssetBalance := fun t ty =>
        if t = token ∧ ty = type_ then value else s.totalAssetBalance t ty }

/-- Modelled from the spec: `assetdef.rs` (`is_valid_token`, the character-level
check of a token symbol) is absent from src/; only non-emptiness of the symbol
is modelled. -/
def is_valid_token (token : Token) : Bool :=
  decide (token ≠ [])

/-- `Module::is_valid_asset`, returning the error message of the failing check. -/
def is_valid_asset_err (s : State Account) (token : Token) : Option String :=
  if is_valid_token token = false then some "not a valid token symbol"
  else
    match s.assetInfo token with
    | some true => none
    | some false => some "not a valid token"
    | none => some "not a registered token"

/-- Boolean form of `Module::is_valid_asset`. -/
def is_valid_asset (s : State Account) (token : Token) : Bool :=
  (is_valid_asset_err s token).isNone

/-- `balances::Module::increase_total_stake_by` (external collaborator): bumps
`TotalIssuance`. -/
def increase_total_stake_by (s : State Account) (value : Nat) : State Account :=
  { s with totalIssuance := s.totalIssuance + value }

/-- `Module::issue`.  The runtime instantiates `OnAssetChanged` with `()`
(`type OnAssetChanged = ()` in `runtime/src/lib.rs`), whose hooks always
succeed, so the trigger reduces to emitting the event. -/
def issue (s : State Account) (token : Token) (who : Account) (value : Nat) :
    State Account × Option String :=
  if token = pcxToken then
    match checkedAdd (asset_balance s who pcxToken AssetType.Free) value with
    | some b =>
        let s1 := set_free_balance_creating s who pcxToken b
        let s2 := increase_total_stake_by s1 value
        (deposit_event s2 (.Issue token who value), none)
    | none => (s, some "free balance too high to issue")
  else
    match is_valid_asset_err s token with
    | some e => (s, some e)
    | none =>
        let total_free_token := total_asset_balance s token AssetType.Free
        let free_token := asset_balance s who token AssetType.Free
        match checkedAdd free_token value with
        | none => (s, some "free balance too high to issue")
        | some new_free_token =>
          match checkedAdd total_free_token value with
          | none => (s, some "total free balance too high to issue")
          | some new_total_free_token =>
            let s1 := set_total_asset_balance s token AssetType.Free new_total_free_token
            let s2 := set_free_balance_creating s1 who token new_free_token
            (deposit_event s2 (.Issue token who value), none)

/-- `Module::destroy`: burns from the `ReservedWithdrawal` partition. -/
def destroy (s : State Account) (token : Token) (who : Account) (value : Nat) :
    State Account × Option String :=
  if token = pcxToken then (s, some "should not use chainx token here")
  else
    match is_valid_asset_err s token with
    | some e => (s, some e)
    | none =>
        let type_ := AssetType.ReservedWithdrawal
        let total_reserved_token := total_asset_balance s token type_
        let reserved_token := asset_balance s who token type_
        match checkedSub reserved_token value with
        | none => (s, some "reserved balance too low to destroy")
        | some new_reserved_token =>
          match checkedSub total_reserved_token value with
          | none => (s, some "total reserved balance too low to destroy")
          | some new_total_reserved_token =>
            let s1 := set_total_asset_balance s token type_ new_total_reserved_token
            let s2 := set_asset_balance s1 who token type_ new_reserved_token
            (deposit_event s2 (.Destory token who value), none)

/-- `Module::move_balance_with_checkflag`: all checked arithmetic happens
before any write; the account-side writes happen after the total-side writes. -/
def move_balance_with_checkflag (s : State Account) (token : Token) (frm : Account)
    (from_type : AssetType) (dst : Account) (to_type : AssetType) (value : Nat)
    (check : Bool) : State Account × Option AssetErr :=
  if frm = dst ∧ from_type = to_type then (s, none)
  else if value = 0 then (s, none)
  else if check = true ∧ is_valid_asset s token = false then (s, some .InvalidToken)
  else
    let from_balance := asset_balance s frm token from_type
    let to_balance := asset_balance s dst token to_type
    match checkedSub from_balance value with
    | none => (s, some .NotEnough)
    | some new_from_balance =>
      match checkedAdd to_balance value with
      | none => (s, some .OverFlow)
      | some new_to_balance =>
        let totals : Except AssetErr (State Account) :=
          if from_type ≠ to_type then
            let total_from_balance := total_asset_balance s token from_type
            let total_to_balance := total_asset_balance s token to_type
            match checkedSub total_from_balance value with
            | none => .error .TotalAssetNotEnough
            | some new_total_from_balance =>
              match checkedAdd total_to_balance value with
              | none => .error .TotalAssetOverFlow
              | some new_total_to_balance =>
                .ok (set_total_asset_balance
                      (set_total_asset_balance s token from_type new_total_from_balance)
                      token to_type new_total_to_balance)
          else .ok s
        match totals with
        | .error e => (s, some e)
        | .ok s1 =>
          let s2 := set_asset_balance s1 frm token from_type new_from_balance
          let s3 :=
            if to_type = AssetType.Free then
              set_free_balance_creating s2 dst token new_to_balance
            else set_asset_balance s2 dst token to_type new_to_balance
          (deposit_event s3 (.Move token frm from_type dst to_type value), none)

/-- `Module::move_balance`. -/
def move_balance (s : State Account) (token : Token) (frm : Account)
    (from_type : AssetType) (dst : Account) (to_type : AssetType) (value : Nat) :
    State Account × Option AssetErr :=
  move_balance_with_checkflag s token frm from_type dst to_type value true

/-- `Module::move_free_balance`. -/
def move_free_balance (s : State Account) (token : Token) (frm dst : Account)
    (value : Nat) : State Account × Option AssetErr :=
  move_balance s token frm AssetType.Free dst AssetType.Free value

/-- Modelled from the spec: `memo.rs` (`is_valid_memo`) is absent from src/;
the spec describes it as the memo-length check against the configured
`MemoLen`. -/
def is_valid_memo (s : State Account) (memo : List Nat) : Bool :=
  decide (memo.length ≤ s.memoLen)

/-- The `transfer` dispatchable.  Origin checking and address lookup are the
external dispatch machinery and always succeed here; the body then checks the
memo, short-circuits a self transfer, and otherwise moves free balance. -/
def transfer (s : State Account) (transactor dest : Account) (token : Token)
    (value : Nat) (memo : List Nat) : State Account × Option String :=
  if is_valid_memo s memo = false then (s, some "memo is too long")
  else if transactor = dest then (s, none)
  else
    match move_free_balance s token transactor dest value with
    | (s1, none) => (s1, none)
    | (s1, some e) => (s1, some e.info)

end XAssets

namespace XAssets

variable {Account : Type} [DecidableEq Account]

lemma checkedAdd_eq {a b c : Nat} (h : checkedAdd a b = some c) : c = a + b := by
  unfold checkedAdd at h
  split at h <;> simp_all

lemma checkedSub_eq {a b c : Nat} (h : checkedSub a b = some c) :
    b ≤ a ∧ c = a - b := by
  unfold checkedSub at h
  split at h <;> simp_all

lemma deposit_event_assetBalance (s : State Account) (e : XEvent Account) :
    (deposit_event s e).assetBalance = s.assetBalance := rfl

lemma deposit_event_totalAssetBalance (s : State Account) (e : XEvent Account) :
    (deposit_event s e).totalAssetBalance = s.totalAssetBalance := rfl

lemma set_asset_balance_totalAssetBalance (s : State Account) (who : Account)
    (token : Token) (type_ : AssetType) (v : Nat) :
    (set_asset_balance s who token type_ v).totalAssetBalance = s.totalAssetBalance := by
  unfold set_asset_balance
  split <;> rfl

lemma set_asset_balance_assetBalance (s : State Account) (who : Account)
    (token : Token) (type_ : AssetType) (v : Nat)
    (h : ¬(token = pcxToken ∧ type_ = AssetType.Free)) :
    (set_asset_balance s who token type_ v).assetBalance
      = fun a t ty => if a = who ∧ t = token ∧ ty = type_ then v
                      else s.assetBalance a t ty := by
  unfold set_asset_balance
  rw [if_neg h]

lemma set_free_balance_creating_totalAssetBalance (s : State Account) (who : Account)
    (token : Token) (v : Nat) (hT : token ≠ pcxToken) :
    (set_free_balance_creating s who token v).totalAssetBalance
      = s.totalAssetBalance := by
  unfold set_free_balance_creating
  rw [if_neg hT]
  split <;> rw [set_asset_balance_totalAssetBalance] <;> rfl

lemma set_free_balance_creating_assetBalance (s : State Account) (who : Account)
    (token : Token) (v : Nat) (hT : token ≠ pcxToken) :
    (set_free_balance_creating s who token v).assetBalance
      = fun a t ty => if a = who ∧ t = token ∧ ty = AssetType.Free then v
                      else s.assetBalance a t ty := by
  have h : ¬(token = pcxToken ∧ AssetType.Free = AssetType.Free) := by
    intro hcon
    exact hT hcon.1
  unfold set_free_balance_creating
  rw [if_neg hT]
  split <;> rw [set_asset_balance_assetBalance _ _ _ _ _ h] <;> rfl

lemma set_total_asset_balance_assetBalance (s : State Account) (token : Token)
    (type_ : AssetType) (v : Nat) :
    (set_total_asset_balance s token type_ v).assetBalance = s.assetBalance := by
  unfold set_total_asset_balance
  split <;> rfl

lemma set_total_asset_balance_totalAssetBalance (s : State Account) (token : Token)
    (type_ : AssetType) (v : Nat)
    (h : ¬(token = pcxToken ∧ type_ = AssetType.Free)) :
    (set_total_asset_balance s token type_ v).totalAssetBalance
      = fun t ty => if t = token ∧ ty = type_ then v
                    else s.totalAssetBalance t ty := by
  unfold set_total_asset_balance
  rw [if_neg h]

lemma asset_balance_ne (s : State Account) (who : Account) (token : Token)
    (type_ : AssetType) (h : ¬(token = pcxToken ∧ type_ = AssetType.Free)) :
    asset_balance s who token type_ = s.assetBalance who token type_ := by
  unfold asset_balance
  rw [if_neg h]

lemma total_asset_balance_ne (s : State Account) (token : Token)
    (type_ : AssetType) (h : ¬(token = pcxToken ∧ type_ = AssetType.Free)) :
    total_asset_balance s token type_ = s.totalAssetBalance token type_ := by
  unfold total_asset_balance
  rw [if_neg h]

lemma not_pcx_free {token : Token} (hT : token ≠ pcxToken) (type_ : AssetType) :
    ¬(token = pcxToken ∧ type_ = AssetType.Free) := by
  intro h
  exact hT h.1

lemma sum_ite_update [Fintype Account] (f : Account → Nat) (i : Account) (v : Nat) :
    (Finset.univ.sum fun a => if a = i then v else f a) + f i
      = Finset.univ.sum f + v := by
  classical
  have h1 : Finset.univ.sum (fun a => if a = i then v else f a)
      = (if i = i then v else f i)
        + (Finset.univ.erase i).sum (fun a => if a = i then v else f a) :=
    (Finset.add_sum_erase _ _ (Finset.mem_univ i)).symm
  have h2 : Finset.univ.sum f = f i + (Finset.univ.erase i).sum f :=
    (Finset.add_sum_erase _ _ (Finset.mem_univ i)).symm
  have h3 : (Finset.univ.erase i).sum (fun a => if a = i then v else f a)
      = (Finset.univ.erase i).sum f :=
    Finset.sum_congr rfl (fun a ha => if_neg (Finset.ne_of_mem_erase ha))
  rw [h1, h2, h3, if_pos rfl]
  omega

/-- The conservation invariant of the spec for one token: the per-type total
equals the sum of the per-account balances of that type. -/
def conservation [Fintype Account] (s : State Account) (token : Token) : Prop :=
  ∀ ty : AssetType,
    s.totalAssetBalance token ty
      = Finset.univ.sum fun a => s.assetBalance a token ty

end XAssets

namespace XAssets

variable {Account : Type} [DecidableEq Account]

lemma sum_two_updates [Fintype Account] (f : Account → Nat) (frm dst : Account)
    (nf nt : Nat) (hne : frm ≠ dst) :
    (Finset.univ.sum fun a => if a = dst then nt else if a = frm then nf else f a)
        + f frm + f dst
      = Finset.univ.sum f + nf + nt := by
  classical
  have h1 := sum_ite_update (fun a => if a = frm then nf else f a) dst nt
  have h2 := sum_ite_update f frm nf
  simp only [] at h1
  rw [if_neg (Ne.symm hne)] at h1
  omega

lemma conservation_single [Fintype Account] (s sf : State Account) (token : Token)
    (who : Account) (ty0 : AssetType) (nv ntv : Nat)
    (hA : ∀ a ty, sf.assetBalance a token ty
        = if a = who ∧ ty = ty0 then nv else s.assetBalance a token ty)
    (hTo : ∀ ty, sf.totalAssetBalance token ty
        = if ty = ty0 then ntv else s.totalAssetBalance token ty)
    (heq : ntv + s.assetBalance who token ty0 = s.totalAssetBalance token ty0 + nv)
    (hc : conservation s token) : conservation sf token := by
  intro ty
  rw [hTo ty]
  by_cases hty : ty = ty0
  · subst hty
    rw [if_pos rfl]
    have hcan : (Finset.univ.sum fun a => sf.assetBalance a token ty)
        = Finset.univ.sum fun a =>
            if a = who then nv else s.assetBalance a token ty :=
      Finset.sum_congr rfl fun a _ => by
        rw [hA a ty]
        by_cases ha : a = who
        · rw [if_pos ⟨ha, rfl⟩, if_pos ha]
        · rw [if_neg fun h => ha h.1, if_neg ha]
    rw [hcan]
    have hs : (Finset.univ.sum fun a =>
        if a = who then nv else s.assetBalance a token ty)
        + s.assetBalance who token ty
        = (Finset.univ.sum fun a => s.assetBalance a token ty) + nv :=
      sum_ite_update (fun a => s.assetBalance a token ty) who nv
    have hone : s.assetBalance who token ty
        ≤ Finset.univ.sum fun a => s.assetBalance a token ty :=
      @Finset.single_le_sum Account ℕ _ (fun a => s.assetBalance a token ty)
        Finset.univ (fun a _ => Nat.zero_le _) who (Finset.mem_univ who)
    have hcf := hc ty
    omega
  · rw [if_neg hty]
    have hcan : (Finset.univ.sum fun a => sf.assetBalance a token ty)
        = Finset.univ.sum fun a => s.assetBalance a token ty :=
      Finset.sum_congr rfl fun a _ => by
        rw [hA a ty, if_neg fun h => hty h.2]
    rw [hcan]
    exact hc ty

lemma conservation_move_same [Fintype Account] (s sf : State Account) (token : Token)
    (frm dst : Account) (ty0 : AssetType) (v nf nt : Nat)
    (hne : frm ≠ dst)
    (hA : ∀ a ty, sf.assetBalance a token ty
        = if a = dst ∧ ty = ty0 then nt
          else if a = frm ∧ ty = ty0 then nf else s.assetBalance a token ty)
    (hTo : ∀ ty, sf.totalAssetBalance token ty = s.totalAssetBalance token ty)
    (hnf : nf + v = s.assetBalance frm token ty0)
    (hnt : nt = s.assetBalance dst token ty0 + v)
    (hc : conservation s token) : conservation sf token := by
  intro ty
  rw [hTo ty]
  by_cases hty : ty = ty0
  · subst hty
    have hcan : (Finset.univ.sum fun a => sf.assetBalance a token ty)
        = Finset.univ.sum fun a =>
            if a = dst then nt
            else if a = frm then nf else s.assetBalance a token ty :=
      Finset.sum_congr rfl fun a _ => by
        rw [hA a ty]
        by_cases had : a = dst
        · rw [if_pos ⟨had, rfl⟩, if_pos had]
        · rw [if_neg fun h => had h.1, if_neg had]
          by_cases haf : a = frm
          · rw [if_pos ⟨haf, rfl⟩, if_pos haf]
          · rw [if_neg fun h => haf h.1, if_neg haf]
    rw [hcan]
    have hs : (Finset.univ.sum fun a =>
        if a = dst then nt
        else if a = frm then nf else s.assetBalance a token ty)
        + s.assetBalance frm token ty + s.assetBalance dst token ty
        = (Finset.univ.sum fun a => s.assetBalance a token ty) + nf + nt :=
      sum_two_updates (fun a => s.assetBalance a token ty) frm dst nf nt hne
    have hcf := hc ty
    omega
  · have hcan : (Finset.univ.sum fun a => sf.assetBalance a token ty)
        = Finset.univ.sum fun a => s.assetBalance a token ty :=
      Finset.sum_congr rfl fun a _ => by
        rw [hA a ty, if_neg fun h => hty h.2, if_neg fun h => hty h.2]
    rw [hcan]
    exact hc ty

lemma conservation_move_diff [Fintype Account] (s sf : State Account) (token : Token)
    (frm dst : Account) (ft tt : AssetType) (v nf nt ntf ntt : Nat)
    (hft : ft ≠ tt)
    (hA : ∀ a ty, sf.assetBalance a token ty
        = if a = dst ∧ ty = tt then nt
          else if a = frm ∧ ty = ft then nf else s.assetBalance a token ty)
    (hTo : ∀ ty, sf.totalAssetBalance token ty
        = if ty = tt then ntt
          else if ty = ft then ntf else s.totalAssetBalance token ty)
    (hnf : nf + v = s.assetBalance frm token ft)
    (hnt : nt = s.assetBalance dst token tt + v)
    (hntf : ntf + v = s.totalAssetBalance token ft)
    (hntt : ntt = s.totalAssetBalance token tt + v)
    (hc : conservation s token) : conservation sf token := by
  intro ty
  rw [hTo ty]
  by_cases hty2 : ty = tt
  · subst hty2
    rw [if_pos rfl]
    have hcan : (Finset.univ.sum fun a => sf.assetBalance a token ty)
        = Finset.univ.sum fun a =>
            if a = dst then nt else s.assetBalance a token ty :=
      Finset.sum_congr rfl fun a _ => by
        rw [hA a ty]
        by_cases had : a = dst
        · rw [if_pos ⟨had, rfl⟩, if_pos had]
        · rw [if_neg fun h => had h.1, if_neg had,
              if_neg fun h => hft h.2.symm]
    rw [hcan]
    have hs : (Finset.univ.sum fun a =>
        if a = dst then nt else s.assetBalance a token ty)
        + s.assetBalance dst token ty
        = (Finset.univ.sum fun a => s.assetBalance a token ty) + nt :=
      sum_ite_update (fun a => s.assetBalance a token ty) dst nt
    have hcf := hc ty
    omega
  · rw [if_neg hty2]
    by_cases hty1 : ty = ft
    · subst hty1
      rw [if_pos rfl]
      have hcan : (Finset.univ.sum fun a => sf.assetBalance a token ty)
          = Finset.univ.sum fun a =>
              if a = frm then nf else s.assetBalance a token ty :=
        Finset.sum_congr rfl fun a _ => by
          rw [hA a ty, if_neg fun h => hty2 h.2]
          by_cases haf : a = frm
          · rw [if_pos ⟨haf, rfl⟩, if_pos haf]
          · rw [if_neg fun h => haf h.1, if_neg haf]
      rw [hcan]
      have hs : (Finset.univ.sum fun a =>
          if a = frm then nf else s.assetBalance a token ty)
          + s.assetBalance frm token ty
          = (Finset.univ.sum fun a => s.assetBalance a token ty) + nf :=
        sum_ite_update (fun a => s.assetBalance a token ty) frm nf
      have hone : s.assetBalance frm token ty
          ≤ Finset.univ.sum fun a => s.assetBalance a token ty :=
        @Finset.single_le_sum Account ℕ _ (fun a => s.assetBalance a token ty)
          Finset.univ (fun a _ => Nat.zero_le _) frm (Finset.mem_univ frm)
      have hcf := hc ty
      omega
    · rw [if_neg hty1]
      have hcan : (Finset.univ.sum fun a => sf.assetBalance a token ty)
          = Finset.univ.sum fun a => s.assetBalance a token ty :=
        Finset.sum_congr rfl fun a _ => by
          rw [hA a ty, if_neg fun h => hty2 h.2, if_neg fun h => hty1 h.2]
      rw [hcan]
      exact hc ty

end XAssets

namespace XAssets

variable {Account : Type} [DecidableEq Account]

lemma conservation_issue [Fintype Account] (s : State Account) (token : Token)
    (who : Account) (v : Nat) (hT : token ≠ pcxToken) (hc : conservation s token) :
    conservation (issue s token who v).1 token := by
  unfold issue
  rw [if_neg hT]
  cases hva : is_valid_asset_err s token with
  | some e => simp only [hva]; exact hc
  | none =>
  simp only [hva]
  cases h1 : checkedAdd (asset_balance s who token AssetType.Free) v with
  | none => simp only [h1]; exact hc
  | some nf =>
  simp only [h1]
  cases h2 : checkedAdd (total_asset_balance s token AssetType.Free) v with
  | none => simp only [h2]; exact hc
  | some ntf =>
  simp only [h2]
  have hnf := checkedAdd_eq h1
  have hntf := checkedAdd_eq h2
  rw [asset_balance_ne _ _ _ _ (not_pcx_free hT _)] at hnf
  rw [total_asset_balance_ne _ _ _ (not_pcx_free hT _)] at hntf
  refine conservation_single s _ token who AssetType.Free nf ntf ?_ ?_ (by omega) hc
  · intro a ty
    simp only [deposit_event_assetBalance,
      set_free_balance_creating_assetBalance _ _ _ _ hT,
      set_total_asset_balance_assetBalance, eq_self_iff_true, true_and]
  · intro ty
    simp only [deposit_event_totalAssetBalance,
      set_free_balance_creating_totalAssetBalance _ _ _ _ hT,
      set_total_asset_balance_totalAssetBalance _ _ _ _ (not_pcx_free hT _),
      eq_self_iff_true, true_and]

lemma conservation_destroy [Fintype Account] (s : State Account) (token : Token)
    (who : Account) (v : Nat) (hT : token ≠ pcxToken) (hc : conservation s token) :
    conservation (destroy s token who v).1 token := by
  unfold destroy
  rw [if_neg hT]
  cases hva : is_valid_asset_err s token with
  | some e => simp only [hva]; exact hc
  | none =>
  simp only [hva]
  cases h1 : checkedSub (asset_balance s who token AssetType.ReservedWithdrawal) v with
  | none => simp only [h1]; exact hc
  | some nr =>
  simp only [h1]
  cases h2 : checkedSub (total_asset_balance s token AssetType.ReservedWithdrawal) v with
  | none => simp only [h2]; exact hc
  | some ntr =>
  simp only [h2]
  obtain ⟨hle1, hnr⟩ := checkedSub_eq h1
  obtain ⟨hle2, hntr⟩ := checkedSub_eq h2
  rw [asset_balance_ne _ _ _ _ (not_pcx_free hT _)] at hle1 hnr
  rw [total_asset_balance_ne _ _ _ (not_pcx_free hT _)] at hle2 hntr
  refine conservation_single s _ token who AssetType.ReservedWithdrawal nr ntr ?_ ?_
    (by omega) hc
  · intro a ty
    simp only [deposit_event_assetBalance,
      set_asset_balance_assetBalance _ _ _ _ _ (not_pcx_free hT _),
      set_total_asset_balance_assetBalance, eq_self_iff_true, true_and]
  · intro ty
    simp only [deposit_event_totalAssetBalance, set_asset_balance_totalAssetBalance,
      set_total_asset_balance_totalAssetBalance _ _ _ _ (not_pcx_free hT _),
      eq_self_iff_true, true_and]

lemma conservation_move [Fintype Account] (s : State Account) (token : Token)
    (frm : Account) (ft : AssetType) (dst : Account) (tt : AssetType)
    (v : Nat) (check : Bool) (hT : token ≠ pcxToken) (hc : conservation s token) :
    conservation (move_balance_with_checkflag s token frm ft dst tt v check).1 token := by
  unfold move_balance_with_checkflag
  by_cases h0 : frm = dst ∧ ft = tt
  · rw [if_pos h0]; exact hc
  rw [if_neg h0]
  by_cases hv0 : v = 0
  · rw [if_pos hv0]; exact hc
  rw [if_neg hv0]
  by_cases hck : check = true ∧ is_valid_asset s token = false
  · rw [if_pos hck]; exact hc
  rw [if_neg hck]
  cases h1 : checkedSub (asset_balance s frm token ft) v with
  | none => simp only [h1]; exact hc
  | some nf =>
  simp only [h1]
  cases h2 : checkedAdd (asset_balance s dst token tt) v with
  | none => simp only [h2]; exact hc
  | some nt =>
  simp only [h2]
  obtain ⟨hle1, hnf⟩ := checkedSub_eq h1
  have hnt := checkedAdd_eq h2
  rw [asset_balance_ne _ _ _ _ (not_pcx_free hT _)] at hle1 hnf
  rw [asset_balance_ne _ _ _ _ (not_pcx_free hT _)] at hnt
  by_cases hft : ft ≠ tt
  · rw [if_pos hft]
    cases h3 : checkedSub (total_asset_balance s token ft) v with
    | none => simp only [h3]; exact hc
    | some ntf =>
    simp only [h3]
    cases h4 : checkedAdd (total_asset_balance s token tt) v with
    | none => simp only [h4]; exact hc
    | some ntt =>
    simp only [h4]
    obtain ⟨hle3, hntf⟩ := checkedSub_eq h3
    have hntt := checkedAdd_eq h4
    rw [total_asset_balance_ne _ _ _ (not_pcx_free hT _)] at hle3 hntf
    rw [total_asset_balance_ne _ _ _ (not_pcx_free hT _)] at hntt
    refine conservation_move_diff s _ token frm dst ft tt v nf nt ntf ntt hft ?_ ?_
      (by omega) (by omega) (by omega) (by omega) hc
    · intro a ty
      by_cases htt : tt = AssetType.Free
      · subst htt
        rw [if_pos rfl]
        simp only [deposit_event_assetBalance,
          set_free_balance_creating_assetBalance _ _ _ _ hT,
          set_asset_balance_assetBalance _ _ _ _ _ (not_pcx_free hT _),
          set_total_asset_balance_assetBalance, eq_self_iff_true, true_and]
      · rw [if_neg htt]
        simp only [deposit_event_assetBalance,
          set_asset_balance_assetBalance _ _ _ _ _ (not_pcx_free hT _),
          set_total_asset_balance_assetBalance, eq_self_iff_true, true_and]
    · intro ty
      by_cases htt : tt = AssetType.Free
      · subst htt
        rw [if_pos rfl]
        simp only [deposit_event_totalAssetBalance,
          set_free_balance_creating_totalAssetBalance _ _ _ _ hT,
          set_asset_balance_totalAssetBalance,
          set_total_asset_balance_totalAssetBalance _ _ _ _ (not_pcx_free hT _),
          eq_self_iff_true, true_and]
      · rw [if_neg htt]
        simp only [deposit_event_totalAssetBalance, set_asset_balance_totalAssetBalance,
          set_total_asset_balance_totalAssetBalance _ _ _ _ (not_pcx_free hT _),
          eq_self_iff_true, true_and]
  · rw [if_neg hft]
    simp only []
    have htteq : ft = tt := not_not.mp hft
    subst htteq
    have hfd : frm ≠ dst := fun h => h0 ⟨h, rfl⟩
    refine conservation_move_same s _ token frm dst ft v nf nt hfd ?_ ?_
      (by omega) (by omega) hc
    · intro a ty
      by_cases htt : ft = AssetType.Free
      · subst htt
        rw [if_pos rfl]
        simp only [deposit_event_assetBalance,
          set_free_balance_creating_assetBalance _ _ _ _ hT,
          set_asset_balance_assetBalance _ _ _ _ _ (not_pcx_free hT _),
          eq_self_iff_true, true_and]
      · rw [if_neg htt]
        simp only [deposit_event_assetBalance,
          set_asset_balance_assetBalance _ _ _ _ _ (not_pcx_free hT _),
          eq_self_iff_true, true_and]
    · intro ty
      by_cases htt : ft = AssetType.Free
      · subst htt
        rw [if_pos rfl]
        simp only [deposit_event_totalAssetBalance,
          set_free_balance_creating_totalAssetBalance _ _ _ _ hT,
          set_asset_balance_totalAssetBalance]
      · rw [if_neg htt]
        simp only [deposit_event_totalAssetBalance, set_asset_balance_totalAssetBalance]

end XAssets

namespace XAssets

variable {Account : Type} [DecidableEq Account]

lemma move_error_no_writes (s : State Account) (token : Token) (frm : Account)
    (ft : AssetType) (dst : Account) (tt : AssetType) (v : Nat) (check : Bool)
    (e : AssetErr)
    (h : (move_balance_with_checkflag s token frm ft dst tt v check).2 = some e) :
    (move_balance_with_checkflag s token frm ft dst tt v check).1 = s := by
  unfold move_balance_with_checkflag at h ⊢
  by_cases h0 : frm = dst ∧ ft = tt
  · rw [if_pos h0]
  rw [if_neg h0] at h ⊢
  by_cases hv0 : v = 0
  · rw [if_pos hv0]
  rw [if_neg hv0] at h ⊢
  by_cases hck : check = true ∧ is_valid_asset s token = false
  · rw [if_pos hck]
  rw [if_neg hck] at h ⊢
  cases h1 : checkedSub (asset_balance s frm token ft) v with
  | none => simp only [h1]
  | some nf =>
  simp only [h1] at h ⊢
  cases h2 : checkedAdd (asset_balance s dst token tt) v with
  | none => simp only [h2]
  | some nt =>
  simp only [h2] at h ⊢
  by_cases hft : ft ≠ tt
  · rw [if_pos hft] at h ⊢
    cases h3 : checkedSub (total_asset_balance s token ft) v with
    | none => simp only [h3]
    | some ntf =>
    simp only [h3] at h ⊢
    cases h4 : checkedAdd (total_asset_balance s token tt) v with
    | none => simp only [h4]
    | some ntt =>
    simp only [h4] at h
    exact Option.noConfusion h
  · rw [if_neg hft] at h
    simp only [] at h
    exact Option.noConfusion h

/-- C2: whenever `move_balance` (via `move_balance_with_checkflag`) returns one of
the arithmetic errors NotEnough, OverFlow, TotalAssetNotEnough or
TotalAssetOverFlow, the resulting state is exactly the input state: no
per-account balance, no total-per-type counter and no event is touched, because
every checked subtraction and addition happens before the first write. -/
theorem c2_move_balance_error_is_atomic (s : State Account) (token : Token)
    (frm : Account) (ft : AssetType) (dst : Account) (tt : AssetType) (v : Nat)
    (check : Bool) (e : AssetErr)
    (h : (move_balance_with_checkflag s token frm ft dst tt v check).2 = some e)
    (he : e = AssetErr.NotEnough ∨ e = AssetErr.OverFlow
      ∨ e = AssetErr.TotalAssetNotEnough ∨ e = AssetErr.TotalAssetOverFlow) :
    (move_balance_with_checkflag s token frm ft dst tt v check).1 = s :=
  move_error_no_writes s token frm ft dst tt v check e h

/-- Sample ledger state over two accounts used by the witnesses: token `[0]`
is registered and valid, all balances zero. -/
def wState : State Bool :=
  { assetBalance := fun _ _ _ => 0
    totalAssetBalance := fun _ _ => 0
    freeBalance := fun _ => 0
    freeBalanceExists := fun _ => false
    totalIssuance := 0
    assetInfo := fun t => if t = [0] then some true else none
    memoLen := 16
    events := [] }

/-- Witness for C2: a concrete underfunded move fails with NotEnough and leaves
the concrete state unchanged. -/
theorem c2_move_balance_error_is_atomic_witness :
    (move_balance_with_checkflag wState [0] false AssetType.Free true
        AssetType.Free 5 true).1 = wState :=
  c2_move_balance_error_is_atomic wState [0] false AssetType.Free true
    AssetType.Free 5 true AssetErr.NotEnough rfl (Or.inl rfl)

/-- C1: for a non-native token, the conservation invariant (every per-type
total equals the sum of the per-account balances of that type) is preserved by
issue, destroy and move_balance_with_checkflag: each either updates the
account side and the total side together, or fails without touching either. -/
theorem c1_conservation_invariant [Fintype Account] (s : State Account)
    (token : Token) (hT : token ≠ pcxToken) (hc : conservation s token) :
    (∀ who v, conservation (issue s token who v).1 token)
    ∧ (∀ who v, conservation (destroy s token who v).1 token)
    ∧ ∀ frm ft dst tt v check,
        conservation (move_balance_with_checkflag s token frm ft dst tt v check).1
          token :=
  ⟨fun who v => conservation_issue s token who v hT hc,
   fun who v => conservation_destroy s token who v hT hc,
   fun frm ft dst tt v check => conservation_move s token frm ft dst tt v check hT hc⟩

/-- Sample ledger state with nonzero balances satisfying conservation for
token `[0]`: Free 7 + 3 = 10, ReservedWithdrawal 2 + 0 = 2. -/
def wStateC1 : State Bool :=
  { assetBalance := fun a t ty =>
      if t = [0] ∧ ty = AssetType.Free then (if a then 7 else 3)
      else if t = [0] ∧ ty = AssetType.ReservedWithdrawal then (if a then 2 else 0)
      else 0
    totalAssetBalance := fun t ty =>
      if t = [0] ∧ ty = AssetType.Free then 10
      else if t = [0] ∧ ty = AssetType.ReservedWithdrawal then 2 else 0
    freeBalance := fun _ => 0
    freeBalanceExists := fun _ => false
    totalIssuance := 0
    assetInfo := fun t => if t = [0] then some true else none
    memoLen := 16
    events := [] }

/-- Witness for C1: conservation holds after a concrete issue, destroy and
cross-type move on a concrete conserving state. -/
theorem c1_conservation_invariant_witness :
    conservation (issue wStateC1 [0] true 5).1 [0]
    ∧ conservation (destroy wStateC1 [0] true 2).1 [0]
    ∧ conservation (move_balance_with_checkflag wStateC1 [0] true AssetType.Free
        false AssetType.ReservedWithdrawal 4 true).1 [0] :=
  ⟨(c1_conservation_invariant wStateC1 [0] (by decide) (by unfold conservation; decide)).1 true 5,
   (c1_conservation_invariant wStateC1 [0] (by decide) (by unfold conservation; decide)).2.1 true 2,
   (c1_conservation_invariant wStateC1 [0] (by decide) (by unfold conservation; decide)).2.2 true
     AssetType.Free false AssetType.ReservedWithdrawal 4 true⟩

/-- C8: the native token PCX aliases the system balances: reading its Free
balance reads the balances module, writing its Free total is a no-op, its Free
total is TotalIssuance minus the non-Free totals of PCX (stated here under the
no-underflow side conditions of the unchecked u64 subtraction), and every other
token and type pair uses the generic maps. -/
theorem c8_native_asset_aliasing (s : State Account) (who : Account)
    (token : Token) (type_ : AssetType) (v : Nat)
    (hb : pcx_nonfree_total s ≤ s.totalIssuance)
    (hmax : s.totalIssuance ≤ u64Max)
    (hnp : ¬(token = pcxToken ∧ type_ = AssetType.Free)) :
    asset_balance s who pcxToken AssetType.Free = s.freeBalance who
    ∧ set_total_asset_balance s pcxToken AssetType.Free v = s
    ∧ total_asset_balance s pcxToken AssetType.Free
        = s.totalIssuance - pcx_nonfree_total s
    ∧ asset_balance s who token type_ = s.assetBalance who token type_
    ∧ total_asset_balance s token type_ = s.totalAssetBalance token type_
    ∧ (set_total_asset_balance s token type_ v).totalAssetBalance token type_ = v
    ∧ (set_asset_balance s who token type_ v).assetBalance who token type_ = v := by
  refine ⟨rfl, rfl, ?_, asset_balance_ne s who token type_ hnp,
    total_asset_balance_ne s token type_ hnp, ?_, ?_⟩
  · unfold total_asset_balance
    rw [if_pos ⟨rfl, rfl⟩]
    unfold u64WrapSub
    unfold u64Max at hmax ⊢
    omega
  · rw [set_total_asset_balance_totalAssetBalance _ _ _ _ hnp]
    simp
  · rw [set_asset_balance_assetBalance _ _ _ _ _ hnp]
    simp

/-- Witness for C8 at a concrete state with a non-native token. -/
theorem c8_native_asset_aliasing_witness :
    asset_balance wState true pcxToken AssetType.Free = wState.freeBalance true
    ∧ set_total_asset_balance wState pcxToken AssetType.Free 5 = wState
    ∧ total_asset_balance wState pcxToken AssetType.Free
        = wState.totalIssuance - pcx_nonfree_total wState
    ∧ asset_balance wState true [0] AssetType.ReservedWithdrawal
        = wState.assetBalance true [0] AssetType.ReservedWithdrawal
    ∧ total_asset_balance wState [0] AssetType.ReservedWithdrawal
        = wState.totalAssetBalance [0] AssetType.ReservedWithdrawal
    ∧ (set_total_asset_balance wState [0] AssetType.ReservedWithdrawal
        5).totalAssetBalance [0] AssetType.ReservedWithdrawal = 5
    ∧ (set_asset_balance wState true [0] AssetType.ReservedWithdrawal
        5).assetBalance true [0] AssetType.ReservedWithdrawal = 5 :=
  c8_native_asset_aliasing wState true [0] AssetType.ReservedWithdrawal 5
    (by decide) (by decide) (by decide)

/-- C9: a signed transfer whose sender equals the destination succeeds and
returns with the state unchanged after only the memo-length check: no balance
is read or written, no token-validity check runs, and no Move event is
emitted, whatever the token or the value. -/
theorem c9_self_transfer_is_noop (s : State Account) (transactor dest : Account)
    (token : Token) (v : Nat) (memo : List Nat)
    (hm : is_valid_memo s memo = true) (hd : transactor = dest) :
    transfer s transactor dest token v memo = (s, none) := by
  unfold transfer
  have h1 : ¬(is_valid_memo s memo = false) := by simp [hm]
  rw [if_neg h1, if_pos hd]

/-- Witness for C9: a self transfer of an unregistered token with a value far
above any balance still succeeds with no state change. -/
theorem c9_self_transfer_is_noop_witness :
    transfer wState true true [9] 999 [] = (wState, none) :=
  c9_self_transfer_is_noop wState true true [9] 999 [] rfl rfl

end XAssets

namespace CBtc

/-!
Embedding of `cxrml/bridge/btc/src/tx/mod.rs` (UTXO tracker) and
`cxrml/bridge/btc/src/blockchain.rs` (header chain).  `H256` hashes and
`keys::Address` values are opaque byte blobs produced by external crates and
are modelled as `Nat`; a transaction carries its externally computed hash as a
field.  A script `script_pubkey` is represented by the single destination
address that the external `Script::extract_destinations` would yield for it
(`none` for scripts without one), which is all the embedded code inspects.
-/

abbrev Hash := Nat
abbrev Addr := Nat
abbrev AccountId := Nat

/-- A tracked trustee output (`UTXO` in `cxrml/bridge/btc/src/tx/mod.rs`). -/
structure UTXO where
  txid : Hash
  index : Nat
  balance : Nat
  is_spent : Bool
deriving DecidableEq, Repr

/-- The default `UTXO` returned by storage for a missing index. -/
def defaultUTXO : UTXO := ⟨0, 0, 0, false⟩

/-- The `UTXOSet` / `UTXOMaxIndex` storage pair. -/
structure UTXOStorage where
  utxoSet : Nat → UTXO
  utxoMaxIndex : Nat

/-- The wrap modulus of `u64` arithmetic, `2 ^ 64`. -/
def u64Mod : Nat := 18446744073709551616

/-- The loop of `UTXOStorage::select_utxo`: `index` counts down, skipping
spent entries, accumulating unspent ones, returning as soon as the
accumulated balance reaches the requested one.  The accumulation
`count_balance += utxo.balance` is an unchecked `u64` addition, which wraps in
release builds, hence the explicit reduction modulo `2 ^ 64`. -/
def select_utxo_aux (utxoSet : Nat → UTXO) (balance : Nat) :
    Nat → Nat → List UTXO → Option (List UTXO)
  | 0, _, _ => none
  | i + 1, count_balance, utxo_set =>
    let utxo := utxoSet i
    if utxo.is_spent = false then
      let utxo_set2 := utxo_set ++ [utxo]
      let count_balance2 := (count_balance + utxo.balance) % u64Mod
      if count_balance2 ≥ balance then some utxo_set2
      else select_utxo_aux utxoSet balance i count_balance2 utxo_set2
    else select_utxo_aux utxoSet balance i count_balance utxo_set

/-- `UTXOStorage::select_utxo`: a read-only greedy scan from `UTXOMaxIndex`
downward; it performs no storage write. -/
def UTXOStorage.select_utxo (s : UTXOStorage) (balance : Nat) : Option (List UTXO) :=
  select_utxo_aux s.utxoSet balance s.utxoMaxIndex 0 []

/-- The selection procedure as the claim words it: walk the candidate list,
accumulate each balance, return the accumulated set as soon as the running
total reaches the target, and `none` when the list is exhausted. -/
def greedy_scan (target : Nat) : List UTXO → Nat → Option (List UTXO)
  | [], _ => none
  | u :: rest, acc =>
    if acc + u.balance ≥ target then some [u]
    else
      match greedy_scan target rest (acc + u.balance) with
      | some l => some (u :: l)
      | none => none

/-- The stored UTXOs from the highest (most recently added) index downward,
with the spent ones skipped. -/
def unspent_desc (utxoSet : Nat → UTXO) : Nat → List UTXO
  | 0 => []
  | i + 1 =>
    if (utxoSet i).is_spent = false then utxoSet i :: unspent_desc utxoSet i
    else unspent_desc utxoSet i

/-- The claim restated over the storage: feed `greedy_scan` the unspent stored
UTXOs from the highest index downward. -/
def select_utxo_claim (s : UTXOStorage) (target : Nat) : Option (List UTXO) :=
  greedy_scan target (unspent_desc s.utxoSet s.utxoMaxIndex) 0

lemma select_utxo_aux_eq (utxoSet : Nat → UTXO) (target : Nat) :
    ∀ (i : Nat) (acc : Nat) (done : List UTXO),
      acc + ((unspent_desc utxoSet i).map fun u => u.balance).sum < u64Mod →
      select_utxo_aux utxoSet target i acc done
        = Option.map (fun l => done ++ l)
            (greedy_scan target (unspent_desc utxoSet i) acc) := by
  intro i
  induction i with
  | zero => intro acc done hbound; rfl
  | succ n ih =>
    intro acc done hbound
    rw [unspent_desc] at hbound
    simp only [select_utxo_aux, unspent_desc]
    by_cases hsp : (utxoSet n).is_spent = false
    · rw [if_pos hsp, if_pos hsp]
      rw [if_pos hsp] at hbound
      rw [List.map_cons, List.sum_cons] at hbound
      have hmod : (acc + (utxoSet n).balance) % u64Mod = acc + (utxoSet n).balance :=
        Nat.mod_eq_of_lt (by omega)
      rw [hmod]
      by_cases hge : acc + (utxoSet n).balance ≥ target
      · rw [if_pos hge]
        simp only [greedy_scan, if_pos hge]
        rfl
      · rw [if_neg hge]
        simp only [greedy_scan, if_neg hge]
        rw [ih _ _ (by omega)]
        cases greedy_scan target (unspent_desc utxoSet n) (acc + (utxoSet n).balance) with
        | none => rfl
        | some l => simp
    · rw [if_neg hsp, if_neg hsp]
      rw [if_neg hsp] at hbound
      exact ih acc done hbound

/-- C6: the stored-UTXO selection equals the greedy scan the claim describes:
scan from the highest index downward, skip spent entries, accumulate unspent
balances, answer `some` with the accumulated set as soon as the total reaches
the target, `none` if the scan exhausts all entries; the operation reads but
never writes the storage.  Stated under the side condition that the stored
unspent balances sum below `2 ^ 64`, since the running `u64` counter of the
source wraps past that point. -/
theorem c6_select_utxo_is_greedy_scan (s : UTXOStorage) (target : Nat)
    (hbound : ((unspent_desc s.utxoSet s.utxoMaxIndex).map fun u => u.balance).sum
      < u64Mod) :
    s.select_utxo target = select_utxo_claim s target := by
  unfold UTXOStorage.select_utxo select_utxo_claim
  rw [select_utxo_aux_eq _ _ _ _ _ (by omega)]
  cases greedy_scan target (unspent_desc s.utxoSet s.utxoMaxIndex) 0 with
  | none => rfl
  | some l => simp

/-- A concrete three-entry UTXO store for the C6 witness: unspent balances 40
and 30 with a spent 50 between them. -/
def wUtxo : UTXOStorage :=
  ⟨fun i =>
    if i = 0 then ⟨9, 0, 30, false⟩
    else if i = 1 then ⟨8, 1, 50, true⟩
    else if i = 2 then ⟨7, 0, 40, false⟩
    else defaultUTXO, 3⟩

/-- Witness for C6: on the concrete store the selection for target 60 equals
the greedy scan (it picks the unspent 40 and 30, skipping the spent 50). -/
theorem c6_select_utxo_is_greedy_scan_witness :
    wUtxo.select_utxo 60 = select_utxo_claim wUtxo 60 :=
  c6_select_utxo_is_greedy_scan wUtxo 60 (by decide)

end CBtc

namespace CBtc

/-- A bitcoin block header; `hash` carries the externally computed
`header.hash()` (hashing lives in the external `chain` crate). -/
structure BlockHeader where
  previous_header_hash : Hash
  hash : Hash
deriving DecidableEq, Repr

/-- `BestHeader` of `cxrml/bridge/btc/src/blockchain.rs`. -/
structure BestHeader where
  number : Nat
  hash : Hash
deriving DecidableEq, Repr

/-- `SideChainOrigin`. -/
structure SideChainOrigin where
  ancestor : Nat
  canonized_route : List Hash
  decanonized_route : List Hash
  block_number : Nat
deriving DecidableEq, Repr

/-- `BlockOrigin`. -/
inductive BlockOrigin
  | KnownBlock
  | CanonChain (block_number : Nat)
  | SideChain (origin : SideChainOrigin)
  | SideChainBecomingCanonChain (origin : SideChainOrigin)
deriving DecidableEq, Repr

/-- `ChainErr`. -/
inductive ChainErr
  | CannotCanonize
  | UnknownParent
  | NotFound
  | AncientFork
  | Unreachable
  | CanonizeMustZero
  | DecanonizeMustZero
  | ForkErr
  | OtherErr (s : String)
deriving DecidableEq, Repr

/-- A transaction outpoint (`OutPoint` of the external `chain` crate). -/
structure COutPoint where
  hash : Hash
  index : Nat
deriving DecidableEq, Repr

/-- A transaction input; only its `previous_output` is inspected here. -/
structure CTxInput where
  previous_output : COutPoint
deriving DecidableEq, Repr

/-- A transaction output: its value and the single destination address the
external `Script::extract_destinations` yields for its `script_pubkey`
(`none` when the script has no such destination). -/
structure CTxOutput where
  value : Nat
  dest : Option Addr
deriving DecidableEq, Repr

/-- A bitcoin transaction with its externally computed hash. -/
structure CTransaction where
  hash : Hash
  inputs : List CTxInput
  outputs : List CTxOutput
deriving DecidableEq, Repr

/-- `TxType` of the cxrml bridge. -/
inductive CTxType
  | Withdraw
  | Register
  | RegisterDeposit
  | Deposit
deriving DecidableEq, Repr

/-- The candidate withdrawal transaction stored in `TxProposal`; the embedded
code reads its transaction and the block hash it was observed in. -/
structure CandidateTx where
  tx : CTransaction
  block_hash : Hash
deriving DecidableEq, Repr

/-- The storage touched by the cxrml bridge chain code.  `frBalances` and
`frFinishedWithdrawals` stand for the `finacial_recordes` collaborator module,
which is absent from src/ and is modelled from the spec (credit on deposit,
mark-finished on confirmed withdrawal, a cache of pending withdrawals). -/
structure ChainState where
  bestIndex : BestHeader
  blockHeaderFor : Hash → Option BlockHeader
  numberForHash : Hash → Option Nat
  hashsForNumber : Nat → List Hash
  paramsMaxForkRoute : Nat
  irrBlock : Nat
  blockTxids : Hash → List Hash
  txSet : Hash → Option (AccountId × Addr × CTxType × Nat × CTransaction)
  receiveAddress : Option Addr
  utxos : UTXOStorage
  depositCache : Option (List (AccountId × Nat × Hash))
  txProposal : Option CandidateTx
  addressMap : Addr → Option AccountId
  accountMap : AccountId → Option Addr
  btcFee : Nat
  withdrawCache : Option (List (AccountId × Nat))
  frBalances : AccountId → Nat
  frFinishedWithdrawals : List AccountId

/-- One step of `UTXOStorage::update`: scan from the top index down for the
first stored UTXO equal to `u`, flip its `is_spent` to `flag`, and report its
balance; `none` when no entry matches. -/
def utxo_find_eq (utxoSet : Nat → UTXO) (u : UTXO) : Nat → Option Nat
  | 0 => none
  | i + 1 => if utxoSet i = u then some i else utxo_find_eq utxoSet u i

/-- `UTXOStorage::update` (linear scan with break, per listed UTXO). -/
def UTXOStorage.update (s : UTXOStorage) (utxos : List UTXO) (flag : Bool) :
    UTXOStorage × Nat :=
  utxos.foldl
    (fun (p : UTXOStorage × Nat) u =>
      match utxo_find_eq p.1.utxoSet u p.1.utxoMaxIndex with
      | none => p
      | some i =>
        ({ p.1 with utxoSet := fun j =>
            if j = i then { p.1.utxoSet i with is_spent := flag }
            else p.1.utxoSet j },
         p.2 + (p.1.utxoSet i).balance))
    (s, 0)

/-- One step of `UTXOStorage::update_from_outpoint`: find the first stored
UTXO matching the outpoint, from the top index down. -/
def utxo_find_outpoint (utxoSet : Nat → UTXO) (op : COutPoint) : Nat → Option Nat
  | 0 => none
  | i + 1 =>
    if op.hash = (utxoSet i).txid ∧ op.index = (utxoSet i).index then some i
    else utxo_find_outpoint utxoSet op i

/-- `UTXOStorage::update_from_outpoint`. -/
def UTXOStorage.update_from_outpoint (s : UTXOStorage) (ops : List COutPoint)
    (flag : Bool) : UTXOStorage × Nat :=
  ops.foldl
    (fun (p : UTXOStorage × Nat) op =>
      match utxo_find_outpoint p.1.utxoSet op p.1.utxoMaxIndex with
      | none => p
      | some i =>
        ({ p.1 with utxoSet := fun j =>
            if j = i then { p.1.utxoSet i with is_spent := flag }
            else p.1.utxoSet j },
         p.2 + (p.1.utxoSet i).balance))
    (s, 0)

/-- Modelled from the spec: `finacial_recordes::Module::deposit` (module absent
from src/) credits the deposited amount to the account. -/
def fr_deposit (s : ChainState) (who : AccountId) (amount : Nat) : ChainState :=
  { s with frBalances := fun a =>
      if a = who then s.frBalances a + amount else s.frBalances a }

/-- Modelled from the spec: `finacial_recordes::Module::withdrawal_finish`
(module absent from src/) marks the withdrawal of the account as finished. -/
def fr_withdrawal_finish (s : ChainState) (who : AccountId) : ChainState :=
  { s with frFinishedWithdrawals := s.frFinishedWithdrawals ++ [who] }

/-- Modelled from the spec: `Proposal::create_proposal` of the cxrml bridge
(its `tx/proposal.rs` is absent from src/): build one output per withdrawal
(balance minus fee, skipping those not covering the fee), select UTXOs for the
total, add a change output paying the trustee, and store the new candidate in
`TxProposal`; on missing funds nothing is mutated. -/
def cxrml_create_proposal (s : ChainState) (address_vec : List (Addr × Nat))
    (fee : Nat) : ChainState :=
  let outputs : List CTxOutput :=
    address_vec.filterMap fun av =>
      if av.2 > fee then some ⟨av.2 - fee, some av.1⟩ else none
  let out_balance : Nat := (address_vec.map fun av => av.2).sum
  match s.utxos.select_utxo out_balance with
  | none => s
  | some utxo_set =>
    let inputs : List CTxInput := utxo_set.map fun u => ⟨⟨u.txid, u.index⟩⟩
    let ins_balance : Nat := (utxo_set.map fun u => u.balance).sum
    let outputs2 : List CTxOutput :=
      if ins_balance > out_balance + fee then
        match s.receiveAddress with
        | some trustee => outputs ++ [⟨ins_balance - out_balance - fee, some trustee⟩]
        | none => outputs
      else outputs
    { s with txProposal := some ⟨⟨0, inputs, outputs2⟩, s.bestIndex.hash⟩ }

/-- The loop of `TxStorage::rollback_tx` over the txids of the rolled-back
block. -/
def rollback_tx_go (receive_address : Addr) :
    ChainState → List Hash → ChainState × Option String
  | st, [] => (st, none)
  | st, txid :: rest =>
    match st.txSet txid with
    | none => (st, some "tx info for a block txid must exist; modelled panic")
    | some info =>
      let tx_type := info.2.2.1
      let tx := info.2.2.2.2
      match tx_type with
      | CTxType.Withdraw =>
        let out_point_set := tx.inputs.map fun input => input.previous_output
        let st1 := { st with utxos :=
          (st.utxos.update_from_outpoint out_point_set false).1 }
        let out_point_set2 : List COutPoint :=
          (tx.outputs.enum.filterMap fun oi =>
            if oi.2.dest = some receive_address then
              some (⟨txid, oi.1⟩ : COutPoint)
            else none)
        let st2 := { st1 with utxos :=
          (st1.utxos.update_from_outpoint out_point_set2 true).1 }
        rollback_tx_go receive_address st2 rest
      | CTxType.Register => rollback_tx_go receive_address st rest
      | _ =>
        let rollback_spent : List UTXO :=
          tx.outputs.enum.map fun oi => ⟨tx.hash, oi.1, oi.2.value, false⟩
        let st1 := { st with utxos := (st.utxos.update rollback_spent true).1 }
        rollback_tx_go receive_address st1 rest

/-- `TxStorage::rollback_tx`.  The `keys::Address::from_layout` parsing of the
stored receive address is external byte decoding and always succeeds in this
model. -/
def rollback_tx (s : ChainState) (header : Hash) : ChainState × Option String :=
  match s.receiveAddress with
  | none => (s, some "should set RECEIVE_ADDRESS first")
  | some receive_address =>
    rollback_tx_go receive_address s (s.blockTxids header)

/-- `Chain::decanonize`: unwind the best block, roll its transactions back,
drop its number mapping and move the best pointer to its parent. -/
def decanonize (s : ChainState) : ChainState × Except ChainErr Hash :=
  let best_hash := s.bestIndex.hash
  let best_number := s.bestIndex.number
  match s.blockHeaderFor best_hash with
  | none => (s, Except.error (ChainErr.OtherErr
      "blockheader for the best hash must exist; modelled panic"))
  | some best_header =>
    let number_result : Except ChainErr Nat :=
      if best_number > 0 then Except.ok (best_number - 1)
      else if best_header.previous_header_hash ≠ 0 then
        Except.error ChainErr.DecanonizeMustZero
      else Except.ok 0
    match number_result with
    | Except.error e => (s, Except.error e)
    | Except.ok n =>
      let new_best : BestHeader := ⟨n, best_header.previous_header_hash⟩
      match rollback_tx s best_hash with
      | (s1, some msg) => (s1, Except.error (ChainErr.OtherErr msg))
      | (s1, none) =>
        let s2 := { s1 with numberForHash := fun h =>
          if h = best_hash then none else s1.numberForHash h }
        ({ s2 with bestIndex := new_best }, Except.ok best_hash)

/-- The per-entry step of the deposit-cache replay inside `Chain::canonize`. -/
def deposit_step (new_number : Nat) :
    ChainState × List (AccountId × Nat × Hash) → AccountId × Nat × Hash →
    ChainState × List (AccountId × Nat × Hash) :=
  fun p entry =>
    let st := p.1
    let uncomplete := p.2
    match st.numberForHash entry.2.2 with
    | some height =>
      if new_number > height + st.irrBlock then
        (fr_deposit st entry.1 entry.2.1, uncomplete)
      else (st, uncomplete ++ [entry])
    | none => (st, uncomplete ++ [entry])

/-- The deposit block of `Chain::canonize`: take the cache, credit every entry
whose block is deep enough, and put the incomplete remainder back. -/
def canonize_deposit (s : ChainState) (new_number : Nat) : ChainState :=
  match s.depositCache with
  | none => s
  | some vec =>
    let p := vec.foldl (deposit_step new_number) ({ s with depositCache := none }, [])
    { p.1 with depositCache := some p.2 }

/-- The per-output step of the withdrawal confirmation inside
`Chain::canonize`: resolve the destination of the output to an account and
mark its withdrawal finished.  The source indexes the first extracted
destination unchecked; outputs with no destination are skipped here. -/
def withdraw_output_step (st : ChainState) (output : CTxOutput) : ChainState :=
  match output.dest with
  | none => st
  | some addr =>
    match st.addressMap addr with
    | some account_id => fr_withdrawal_finish st account_id
    | none => st

/-- The withdrawal block of `Chain::canonize`: once the stored proposal is
deep enough, mark its destinations finished, then either build the next
proposal from the withdraw cache or kill the slot. -/
def canonize_withdraw (s : ChainState) (new_number : Nat) : ChainState :=
  match s.txProposal with
  | none => s
  | some cand =>
    match s.numberForHash cand.block_hash with
    | none => s
    | some height =>
      if new_number > height + s.irrBlock then
        let s1 := cand.tx.outputs.foldl withdraw_output_step s
        match s1.withdrawCache with
        | some vec =>
          let address_vec : List (Addr × Nat) :=
            vec.filterMap fun ab =>
              match s1.accountMap ab.1 with
              | some addr => some (addr, ab.2)
              | none => none
          cxrml_create_proposal s1 address_vec s1.btcFee
        | none => { s1 with txProposal := none }
      else s

/-- `Chain::canonize`: append `hash` to the main chain as the new best block,
replaying deposits and confirming withdrawals that became deep enough, then
write the number mappings and the best pointer. -/
def canonize (s : ChainState) (hash : Hash) : ChainState × Option ChainErr :=
  let best_hash := s.bestIndex.hash
  let best_number := s.bestIndex.number
  match s.blockHeaderFor hash with
  | none => (s, some (ChainErr.OtherErr
      "blockheader for the canonized hash must exist; modelled panic"))
  | some header =>
    if best_hash ≠ header.previous_header_hash then (s, some ChainErr.CannotCanonize)
    else
      let number_result : Except ChainErr Nat :=
        if header.previous_header_hash = 0 then
          if best_number ≠ 0 then Except.error ChainErr.CanonizeMustZero
          else Except.ok 0
        else Except.ok (best_number + 1)
      match number_result with
      | Except.error e => (s, some e)
      | Except.ok n =>
        let new_best : BestHeader := ⟨n, hash⟩
        let s1 := canonize_deposit s new_best.number
        let s2 := canonize_withdraw s1 new_best.number
        let s3 := { s2 with numberForHash := fun h =>
          if h = new_best.hash then some new_best.number else s2.numberForHash h }
        let s4 := { s3 with hashsForNumber := fun m =>
          if m = new_best.number then
            if (s3.hashsForNumber m).contains new_best.hash then s3.hashsForNumber m
            else s3.hashsForNumber m ++ [new_best.hash]
          else s3.hashsForNumber m }
        ({ s4 with bestIndex := new_best }, none)

/-- The decanonize half of `Chain::fork`, walking the decanonized route from
newest to oldest and checking each unwound hash. -/
def fork_decanonize : ChainState → List Hash → ChainState × Option ChainErr
  | s, [] => (s, none)
  | s, hash :: rest =>
    match decanonize s with
    | (s1, Except.error e) => (s1, some e)
    | (s1, Except.ok decanonized_hash) =>
      if hash ≠ decanonized_hash then (s1, some ChainErr.ForkErr)
      else fork_decanonize s1 rest

/-- The canonize half of `Chain::fork`, applying the new route oldest first. -/
def canonize_list : ChainState → List Hash → ChainState × Option ChainErr
  | s, [] => (s, none)
  | s, hash :: rest =>
    match canonize s hash with
    | (s1, some e) => (s1, some e)
    | (s1, none) => canonize_list s1 rest

/-- `Chain::fork`. -/
def fork (s : ChainState) (side_chain : SideChainOrigin) : ChainState × Option ChainErr :=
  match fork_decanonize s side_chain.decanonized_route.reverse with
  | (s1, some e) => (s1, some e)
  | (s1, none) => canonize_list s1 side_chain.canonized_route

/-- The decanonized-route computation of `Chain::block_origin`: for every main
chain height from the common ancestor up to the best block, the first stored
hash of that height that still has a number mapping. -/
def decanonized_route_of (s : ChainState) (number best_number : Nat) : List Hash :=
  (List.range' (number + 1) (best_number - number)).filterMap fun bn =>
    (s.hashsForNumber bn).find? fun h => (s.numberForHash h).isSome

/-- The bounded backward walk of `Chain::block_origin`: follow parent links of
the side chain until a main chain block is reached, failing `AncientFork` when
`max_fork_route_preset` steps were not enough. -/
def block_origin_loop (s : ChainState) (best_number : Nat) :
    Nat → Nat → Hash → List Hash → Except ChainErr BlockOrigin
  | 0, _, _, _ => Except.error ChainErr.AncientFork
  | fuel + 1, fork_len, next_hash, sidechain_route =>
    match s.numberForHash next_hash with
    | none =>
      match s.blockHeaderFor next_hash with
      | some header =>
        block_origin_loop s best_number fuel (fork_len + 1)
          header.previous_header_hash (sidechain_route ++ [next_hash])
      | none => Except.error ChainErr.NotFound
    | some number =>
      let block_number := number + fork_len + 1
      let origin : SideChainOrigin :=
        { ancestor := number
          canonized_route := sidechain_route.reverse
          decanonized_route := decanonized_route_of s number best_number
          block_number := block_number }
      if block_number > best_number then
        Except.ok (BlockOrigin.SideChainBecomingCanonChain origin)
      else Except.ok (BlockOrigin.SideChain origin)

/-- `Chain::block_origin`. -/
def block_origin (s : ChainState) (header : BlockHeader) : Except ChainErr BlockOrigin :=
  let best_index := s.bestIndex
  match s.blockHeaderFor best_index.hash with
  | none => Except.error (ChainErr.OtherErr
      "blockheader for the best hash must exist; modelled panic")
  | some best_header =>
    if (s.numberForHash header.hash).isSome then Except.ok BlockOrigin.KnownBlock
    else if best_header.hash = header.previous_header_hash then
      Except.ok (BlockOrigin.CanonChain (best_index.number + 1))
    else if s.blockHeaderFor header.previous_header_hash = none then
      Except.error ChainErr.UnknownParent
    else
      block_origin_loop s best_index.number s.paramsMaxForkRoute 0
        header.previous_header_hash []

/-- `Chain::insert_best_header`. -/
def insert_best_header (s : ChainState) (header : BlockHeader) :
    ChainState × Option ChainErr :=
  match block_origin s header with
  | Except.error e => (s, some e)
  | Except.ok BlockOrigin.KnownBlock => (s, some ChainErr.Unreachable)
  | Except.ok (BlockOrigin.CanonChain _) => canonize s header.hash
  | Except.ok (BlockOrigin.SideChainBecomingCanonChain origin) =>
    match fork s origin with
    | (s1, some e) => (s1, some e)
    | (s1, none) => canonize s1 header.hash
  | Except.ok (BlockOrigin.SideChain _) => (s, none)

end CBtc

namespace CBtc

/-- Equality of the chain bookkeeping fields that `block_origin` reads. -/
def chainFieldsEq (a b : ChainState) : Prop :=
  a.blockHeaderFor = b.blockHeaderFor
  ∧ a.numberForHash = b.numberForHash
  ∧ a.bestIndex = b.bestIndex

lemma chainFieldsEq_refl (a : ChainState) : chainFieldsEq a a := ⟨rfl, rfl, rfl⟩

lemma chainFieldsEq_trans {a b c : ChainState} (h1 : chainFieldsEq a b)
    (h2 : chainFieldsEq b c) : chainFieldsEq a c :=
  ⟨h1.1.trans h2.1, h1.2.1.trans h2.2.1, h1.2.2.trans h2.2.2⟩

lemma deposit_step_fields (new_number : Nat)
    (p : ChainState × List (AccountId × Nat × Hash)) (e : AccountId × Nat × Hash) :
    chainFieldsEq ((deposit_step new_number p e).1) p.1 := by
  obtain ⟨st, uc⟩ := p
  cases h : st.numberForHash e.2.2 with
  | none =>
    simp only [deposit_step, fr_deposit, h]
    exact ⟨rfl, rfl, rfl⟩
  | some height =>
    by_cases hgt : new_number > height + st.irrBlock
    · simp only [deposit_step, fr_deposit, h, if_pos hgt]
      exact ⟨rfl, rfl, rfl⟩
    · simp only [deposit_step, fr_deposit, h, if_neg hgt]
      exact ⟨rfl, rfl, rfl⟩

lemma deposit_fold_fields (new_number : Nat)
    (vec : List (AccountId × Nat × Hash)) :
    ∀ p : ChainState × List (AccountId × Nat × Hash),
      chainFieldsEq ((vec.foldl (deposit_step new_number) p).1) p.1 := by
  induction vec with
  | nil => intro p; exact chainFieldsEq_refl _
  | cons e rest ih =>
    intro p
    rw [List.foldl_cons]
    exact chainFieldsEq_trans (ih (deposit_step new_number p e))
      (deposit_step_fields new_number p e)

lemma canonize_deposit_fields (s : ChainState) (new_number : Nat) :
    chainFieldsEq (canonize_deposit s new_number) s := by
  cases hd : s.depositCache with
  | none =>
    simp only [canonize_deposit, hd]
    exact chainFieldsEq_refl _
  | some vec =>
    simp only [canonize_deposit, hd]
    have h := deposit_fold_fields new_number vec ({ s with depositCache := none }, [])
    exact ⟨h.1, h.2.1, h.2.2⟩

lemma withdraw_output_step_fields (st : ChainState) (output : CTxOutput) :
    chainFieldsEq (withdraw_output_step st output) st := by
  cases hd : output.dest with
  | none =>
    simp only [withdraw_output_step, hd]
    exact chainFieldsEq_refl _
  | some addr =>
    cases ha : st.addressMap addr with
    | none =>
      simp only [withdraw_output_step, hd, ha]
      exact chainFieldsEq_refl _
    | some account_id =>
      simp only [withdraw_output_step, fr_withdrawal_finish, hd, ha]
      exact ⟨rfl, rfl, rfl⟩

lemma withdraw_fold_fields (outputs : List CTxOutput) :
    ∀ st : ChainState, chainFieldsEq (outputs.foldl withdraw_output_step st) st := by
  induction outputs with
  | nil => intro st; exact chainFieldsEq_refl _
  | cons o rest ih =>
    intro st
    rw [List.foldl_cons]
    exact chainFieldsEq_trans (ih (withdraw_output_step st o))
      (withdraw_output_step_fields st o)

lemma cxrml_create_proposal_fields (s : ChainState)
    (address_vec : List (Addr × Nat)) (fee : Nat) :
    chainFieldsEq (cxrml_create_proposal s address_vec fee) s := by
  cases hs : s.utxos.select_utxo ((address_vec.map fun av => av.2).sum) with
  | none =>
    simp only [cxrml_create_proposal, hs]
    exact chainFieldsEq_refl _
  | some utxo_set =>
    simp only [cxrml_create_proposal, hs]
    exact ⟨rfl, rfl, rfl⟩

lemma canonize_withdraw_fields (s : ChainState) (new_number : Nat) :
    chainFieldsEq (canonize_withdraw s new_number) s := by
  cases ht : s.txProposal with
  | none =>
    simp only [canonize_withdraw, ht]
    exact chainFieldsEq_refl _
  | some cand =>
    cases hn : s.numberForHash cand.block_hash with
    | none =>
      simp only [canonize_withdraw, ht, hn]
      exact chainFieldsEq_refl _
    | some height =>
      by_cases hgt : new_number > height + s.irrBlock
      · simp only [canonize_withdraw, ht, hn, if_pos hgt]
        have h1 := withdraw_fold_fields cand.tx.outputs s
        cases hw : (cand.tx.outputs.foldl withdraw_output_step s).withdrawCache with
        | some vec =>
          simp only [hw]
          exact chainFieldsEq_trans
            (cxrml_create_proposal_fields (cand.tx.outputs.foldl withdraw_output_step s) _ _) h1
        | none =>
          simp only [hw]
          exact chainFieldsEq_trans ⟨rfl, rfl, rfl⟩ h1
      · simp only [canonize_withdraw, ht, hn, if_neg hgt]
        exact chainFieldsEq_refl _

/-- Success characterization of `canonize`: the canonized hash gains a number
mapping, the best pointer moves dst it, and the stored headers are untouched. -/
lemma canonize_ok (s : ChainState) (hash : Hash) (s2 : ChainState)
    (h : canonize s hash = (s2, none)) :
    (s2.numberForHash hash).isSome = true
    ∧ s2.blockHeaderFor = s.blockHeaderFor
    ∧ s2.bestIndex.hash = hash
    ∧ ∃ hdr, s.blockHeaderFor hash = some hdr := by
  unfold canonize at h
  cases hbh : s.blockHeaderFor hash with
  | none =>
    rw [hbh] at h
    try simp only [] at h
    exact absurd (congrArg Prod.snd h) (by simp)
  | some header =>
    rw [hbh] at h
    try simp only [] at h
    by_cases hne : s.bestIndex.hash ≠ header.previous_header_hash
    · rw [if_pos hne] at h
      exact absurd (congrArg Prod.snd h) (by simp)
    · rw [if_neg hne] at h
      try simp only [] at h
      by_cases hz : header.previous_header_hash = 0
      · rw [if_pos hz] at h
        by_cases hb : s.bestIndex.number ≠ 0
        · rw [if_pos hb] at h
          exact absurd (congrArg Prod.snd h) (by simp)
        · rw [if_neg hb] at h
          try simp only [] at h
          have hs2 := congrArg Prod.fst h
          try simp only [] at hs2
          subst hs2
          refine ⟨by simp, ?_, rfl, ⟨header, rfl⟩⟩
          have hc1 := canonize_deposit_fields s 0
          have hc2 := canonize_withdraw_fields (canonize_deposit s 0) 0
          exact (hc2.1.trans hc1.1)
      · rw [if_neg hz] at h
        try simp only [] at h
        have hs2 := congrArg Prod.fst h
        try simp only [] at hs2
        subst hs2
        refine ⟨by simp, ?_, rfl, ⟨header, rfl⟩⟩
        have hc1 := canonize_deposit_fields s (s.bestIndex.number + 1)
        have hc2 := canonize_withdraw_fields (canonize_deposit s (s.bestIndex.number + 1))
          (s.bestIndex.number + 1)
        exact (hc2.1.trans hc1.1)

/-- When `block_origin` answers at all, the best header was present. -/
lemma block_origin_ok_best (s : ChainState) (header : BlockHeader) (b : BlockOrigin)
    (h : block_origin s header = Except.ok b) :
    ∃ bh, s.blockHeaderFor s.bestIndex.hash = some bh := by
  unfold block_origin at h
  simp only [] at h
  cases hbh : s.blockHeaderFor s.bestIndex.hash with
  | none =>
    rw [hbh] at h
    exact Except.noConfusion h
  | some bh => exact ⟨bh, rfl⟩

/-- A duplicate of an already canonized header is detected as `KnownBlock` and
rejected as `ChainErr::Unreachable` with no state mutation. -/
lemma known_block_rejected (s : ChainState) (header : BlockHeader) (bh : BlockHeader)
    (hbest : s.blockHeaderFor s.bestIndex.hash = some bh)
    (hknown : (s.numberForHash header.hash).isSome = true) :
    insert_best_header s header = (s, some ChainErr.Unreachable) := by
  unfold insert_best_header block_origin
  simp only [hbest, hknown, eq_self_iff_true, if_true]

end CBtc

namespace CBtc

lemma known_block_origin (s : ChainState) (header : BlockHeader) (bh : BlockHeader)
    (hbest : s.blockHeaderFor s.bestIndex.hash = some bh)
    (hknown : (s.numberForHash header.hash).isSome = true) :
    block_origin s header = Except.ok BlockOrigin.KnownBlock := by
  unfold block_origin
  simp only [hbest, hknown, eq_self_iff_true, if_true]

/-- C5 (amended): re-submitting a header never mutates the chain state.  If an
insertion succeeded, inserting the same header again returns with the state
unchanged; when the header is part of the main chain (has a number mapping),
the duplicate is recognized as `BlockOrigin::KnownBlock` and
`insert_best_header` rejects it with `ChainErr::Unreachable` — an error
return, not a silent success — again without mutating anything. -/
theorem c5_header_insert_idempotent (s s1 : ChainState) (header : BlockHeader)
    (h : insert_best_header s header = (s1, none)) :
    (insert_best_header s1 header).1 = s1
    ∧ ((s1.numberForHash header.hash).isSome = true →
        block_origin s1 header = Except.ok BlockOrigin.KnownBlock
        ∧ insert_best_header s1 header = (s1, some ChainErr.Unreachable)) := by
  cases hbo : block_origin s header with
  | error e =>
    unfold insert_best_header at h
    rw [hbo] at h
    exact absurd (congrArg Prod.snd h) (by simp)
  | ok b =>
    obtain ⟨bh, hbest⟩ := block_origin_ok_best s header b hbo
    cases b with
    | KnownBlock =>
      unfold insert_best_header at h
      rw [hbo] at h
      exact absurd (congrArg Prod.snd h) (by simp)
    | CanonChain n =>
      unfold insert_best_header at h
      rw [hbo] at h
      obtain ⟨hkn, hbhf, hbix, hdr, hhdr⟩ := canonize_ok s header.hash s1 h
      have hbest1 : s1.blockHeaderFor s1.bestIndex.hash = some hdr := by
        rw [hbhf, hbix]
        exact hhdr
      have hrej := known_block_rejected s1 header hdr hbest1 hkn
      exact ⟨by rw [hrej], fun _ =>
        ⟨known_block_origin s1 header hdr hbest1 hkn, hrej⟩⟩
    | SideChain origin =>
      unfold insert_best_header at h
      rw [hbo] at h
      have hs1 : s = s1 := congrArg Prod.fst h
      subst hs1
      constructor
      · unfold insert_best_header
        rw [hbo]
      · intro hk
        exact ⟨known_block_origin s header bh hbest hk,
          known_block_rejected s header bh hbest hk⟩
    | SideChainBecomingCanonChain origin =>
      unfold insert_best_header at h
      rw [hbo] at h
      simp only [] at h
      cases hf : fork s origin with
      | mk smid e2 =>
        rw [hf] at h
        cases e2 with
        | some e =>
          simp only [] at h
          exact absurd (congrArg Prod.snd h) (by simp)
        | none =>
          simp only [] at h
          obtain ⟨hkn, hbhf, hbix, hdr, hhdr⟩ := canonize_ok smid header.hash s1 h
          have hbest1 : s1.blockHeaderFor s1.bestIndex.hash = some hdr := by
            rw [hbhf, hbix]
            exact hhdr
          have hrej := known_block_rejected s1 header hdr hbest1 hkn
          exact ⟨by rw [hrej], fun _ =>
            ⟨known_block_origin s1 header hdr hbest1 hkn, hrej⟩⟩

/-- A concrete two-block chain: genesis (hash 1) and its child (hash 2) are
canonized, the best pointer sits at hash 2; a not-yet-inserted child header
(hash 3, parent 2) is already stored in `BlockHeaderFor` as the surrounding
dispatch code does before calling `insert_best_header`. -/
def cex5 : ChainState :=
  { bestIndex := ⟨1, 2⟩
    blockHeaderFor := fun h =>
      if h = 1 then some ⟨0, 1⟩
      else if h = 2 then some ⟨1, 2⟩
      else if h = 3 then some ⟨2, 3⟩
      else none
    numberForHash := fun h => if h = 1 then some 0 else if h = 2 then some 1 else none
    hashsForNumber := fun n => if n = 0 then [1] else if n = 1 then [2] else []
    paramsMaxForkRoute := 6
    irrBlock := 6
    blockTxids := fun _ => []
    txSet := fun _ => none
    receiveAddress := some 99
    utxos := ⟨fun _ => defaultUTXO, 0⟩
    depositCache := none
    txProposal := none
    addressMap := fun _ => none
    accountMap := fun _ => none
    btcFee := 0
    withdrawCache := none
    frBalances := fun _ => 0
    frFinishedWithdrawals := [] }

/-- Counterexample for C5 as stated: re-submitting the already canonized
header (hash 2) is recognized as `KnownBlock`, but `insert_best_header`
returns the error `ChainErr::Unreachable` rather than a non-error no-op (the
state is nevertheless untouched). -/
theorem c5_counterexample :
    block_origin cex5 ⟨1, 2⟩ = Except.ok BlockOrigin.KnownBlock
    ∧ (insert_best_header cex5 ⟨1, 2⟩).2 = some ChainErr.Unreachable
    ∧ (insert_best_header cex5 ⟨1, 2⟩).1 = cex5 := by
  exact ⟨rfl, rfl, rfl⟩

/-- The state after inserting the fresh header (hash 3) on top of `cex5`. -/
def cex5after : ChainState := (insert_best_header cex5 ⟨2, 3⟩).1

/-- Witness for the amended C5 at a concrete chain: after a successful
insertion of header hash 3, re-inserting it leaves the state unchanged and is
rejected as a known block. -/
theorem c5_header_insert_idempotent_witness :
    (insert_best_header cex5after ⟨2, 3⟩).1 = cex5after
    ∧ (block_origin cex5after ⟨2, 3⟩ = Except.ok BlockOrigin.KnownBlock
        ∧ insert_best_header cex5after ⟨2, 3⟩
            = (cex5after, some ChainErr.Unreachable)) :=
  ⟨(c5_header_insert_idempotent cex5 cex5after ⟨2, 3⟩ rfl).1,
   (c5_header_insert_idempotent cex5 cex5after ⟨2, 3⟩ rfl).2 rfl⟩

end CBtc

namespace XBtc

/-!
Embedding of `xrml/xbridge/bitcoin/src/tx/handler.rs` (deposit / withdrawal
handling) and `xrml/xbridge/bitcoin/src/tx/proposal.rs` (the withdrawal
proposal builder).  The module root `lib.rs` (storage declarations), `types.rs`,
`tx/mod.rs` and `tx/utils.rs` of this package are absent from src/; the storage
items they declare are modelled as state fields from their use sites and the
spec, and the helpers they define (`ensure_identical`,
`get_hot_trustee_address`, `select_utxo`) are modelled from the spec where
noted.  `H256` hashes are modelled as `Nat`; an output script is represented by
what the handler extracts from it: an OP_RETURN payload, a destination address,
or nothing.  The byte-level OP_RETURN account decoding (`Extracter` of
`xr-primitives`) is kept abstract as the function argument `accountOf`.
-/

abbrev Hash := Nat

/-- `keys::Type` of an address. -/
inductive AddrKind
  | P2PKH
  | P2SH
deriving DecidableEq, Repr

/-- `keys::Address` (network dropped: never inspected by the embedded code). -/
structure Address where
  kind : AddrKind
  hash : Nat
deriving DecidableEq, Repr

/-- `OutPoint`. -/
structure BOutPoint where
  hash : Hash
  index : Nat
deriving DecidableEq, Repr

/-- `TransactionInput`. -/
structure BTxInput where
  previous_output : BOutPoint
  script_sig : List Nat
  sequence : Nat
  script_witness : List (List Nat)
deriving DecidableEq, Repr

/-- What the handler extracts from an output `script_pubkey`: an OP_RETURN
null-data payload (the bytes after the two opcode bytes), the destination
address the external script library yields, or nothing of interest. -/
inductive ScriptInfo
  | nullData (payload : List Nat)
  | pay (dest : Address)
  | other
deriving DecidableEq, Repr

/-- `TransactionOutput`. -/
structure BTxOutput where
  value : Nat
  script_pubkey : ScriptInfo
deriving DecidableEq, Repr

/-- `Transaction`. -/
structure BTransaction where
  version : Nat
  inputs : List BTxInput
  outputs : List BTxOutput
  lock_time : Nat
deriving DecidableEq, Repr

/-- The transaction classes the handler distinguishes (`TxType`). -/
inductive BTxType
  | Withdrawal
  | Deposit
  | Other
deriving DecidableEq, Repr

/-- `TxInfo` (its `input_address` lives in the separate `InputAddrFor` map). -/
structure TxInfo where
  raw_tx : BTransaction
  tx_type : BTxType
deriving DecidableEq, Repr

/-- One entry of the pending-deposit cache (`DepositCache`). -/
structure DepositCache where
  txid : Hash
  balance : Nat
deriving DecidableEq, Repr

/-- The outstanding withdrawal proposal (`WithdrawalProposal`; its signature
state is never read by the embedded code). -/
structure WithdrawalProposal where
  tx : BTransaction
  withdrawal_id_list : List Nat
deriving DecidableEq, Repr

/-- `CandidateTx` stored in the `TxProposal` slot. -/
structure CandidateTx where
  tx : BTransaction
  outs : List Nat
deriving DecidableEq, Repr

/-- A withdrawal application record (`xrecords::Application` data: only its
balance and destination address bytes are read). -/
structure Application where
  balance : Nat
  addr : List Nat
deriving DecidableEq, Repr

/-- Ledger-side events the handler emits (payloads trimmed to what the claims
observe). -/
inductive BtcEvent (Account : Type)
  | Withdrawal (id : Nat) (txid : Hash)
  | WithdrawalFatalErr (txid : Hash)
  | Deposit (who : Account) (balance : Nat) (addr : Address) (txid : Hash)
  | DepositPending (who : Account) (balance : Nat) (addr : Address)
deriving DecidableEq, Repr

/-- The storage touched by the embedded handler and proposal builder.
`addressMap` models the `xaccounts` binding collaborator keyed directly by the
address (the `layout()` byte encoding is external and injective);
`appFinished` and `xbtcBalance` model the `xrecords` collaborator (absent from
src/): the per-application finished flag and the credited X-BTC balance. -/
@[ext]
structure BtcState (Account : Type) where
  inputAddrFor : Hash → Option Address
  addressMap : Address → Option (Account × List Nat)
  pendingDepositMap : Address → Option (List DepositCache)
  currentWithdrawalProposal : Option WithdrawalProposal
  txProposal : Option CandidateTx
  switchXbtc : Bool
  trusteeAddress : Option Address
  applicationMap : Nat → Option Application
  appFinished : Nat → Bool
  xbtcBalance : Account → Nat
  utxoSet : Nat → CBtc.UTXO
  utxoMaxIndex : Nat
  events : List (BtcEvent Account)

variable {Account : Type} [DecidableEq Account] [Inhabited Account]

/-- `Module::deposit_event`. -/
def deposit_event (s : BtcState Account) (e : BtcEvent Account) : BtcState Account :=
  { s with events := s.events ++ [e] }

/-- Modelled from the spec: `xrecords::Module::deposit` via `deposit_token`
(the `xrecords` module is absent from src/) credits the amount to the
account. -/
def deposit_token (s : BtcState Account) (who : Account) (balance : Nat) :
    BtcState Account :=
  { s with xbtcBalance := fun a =>
      if a = who then s.xbtcBalance a + balance else s.xbtcBalance a }

/-- Modelled from the spec: `xaccounts::apply_update_binding` (absent from
src/) overwrites the binding of the address with the new account and
channel. -/
def update_binding (s : BtcState Account) (who : Account) (channel_name : List Nat)
    (input_addr : Address) : BtcState Account :=
  { s with addressMap := fun a =>
      if a = input_addr then some (who, channel_name) else s.addressMap a }

/-- `insert_pending_deposit`: append the cache entry to the per-address list
unless an identical entry is already present. -/
def insert_pending_deposit (s : BtcState Account) (input_address : Address)
    (txid : Hash) (balance : Nat) : BtcState Account :=
  let cache : DepositCache := ⟨txid, balance⟩
  match s.pendingDepositMap input_address with
  | some list =>
    let list2 := if cache ∈ list then list else list ++ [cache]
    { s with pendingDepositMap := fun a =>
        if a = input_address then some list2 else s.pendingDepositMap a }
  | none =>
    { s with pendingDepositMap := fun a =>
        if a = input_address then some [cache] else s.pendingDepositMap a }

/-- The per-entry step of `remove_pending_deposit`: credit the cached amount
and emit the pending-deposit event. -/
def remove_pending_step (who : Account) (input_address : Address)
    (st : BtcState Account) (r : DepositCache) : BtcState Account :=
  deposit_event (deposit_token st who r.balance)
    (BtcEvent.DepositPending who r.balance input_address)

/-- `remove_pending_deposit`: replay every cached deposit of the address into
the account, then drop the cache entry for the address. -/
def remove_pending_deposit (s : BtcState Account) (input_address : Address)
    (who : Account) : BtcState Account :=
  match s.pendingDepositMap input_address with
  | none => s
  | some record =>
    let s1 := record.foldl (remove_pending_step who input_address) s
    { s1 with pendingDepositMap := fun a =>
        if a = input_address then none else s1.pendingDepositMap a }

/-- The per-output step of `parse_deposit_outputs`, folding
(account_info, deposit_balance, has_opreturn, original). -/
def parse_outputs_step (accountOf : List Nat → Option (Account × List Nat))
    (trustee_address : Address)
    (acc : Option (Account × List Nat) × Nat × Bool × List Nat)
    (output : BTxOutput) :
    Option (Account × List Nat) × Nat × Bool × List Nat :=
  match output.script_pubkey with
  | ScriptInfo.nullData payload =>
    if acc.2.2.1 = false then
      let account_info := accountOf payload
      let original := if account_info.isSome then acc.2.2.2 ++ payload else acc.2.2.2
      (account_info, acc.2.1, true, original)
    else acc
  | ScriptInfo.pay dest =>
    if dest = trustee_address ∧ output.value > 0 then
      (acc.1, acc.2.1 + output.value, acc.2.2.1, acc.2.2.2)
    else acc
  | ScriptInfo.other => acc

/-- `parse_deposit_outputs`: only the first OP_RETURN output is decoded; the
values of the outputs paying the trustee address are summed.
`get_hot_trustee_address` lives in the absent `tx/utils.rs` and is modelled
from the spec as reading the configured trustee address. -/
def parse_deposit_outputs (s : BtcState Account)
    (accountOf : List Nat → Option (Account × List Nat)) (tx : BTransaction) :
    Except String (Option (Account × List Nat) × Nat × List Nat) :=
  match s.trusteeAddress with
  | none => Except.error "should set trustee address first"
  | some trustee_address =>
    let r := tx.outputs.foldl (parse_outputs_step accountOf trustee_address)
      (none, 0, false, [])
    Except.ok (r.1, r.2.1, r.2.2.2)

/-- `DepositAccountInfo`. -/
inductive DepositAccountInfo (Account : Type)
  | AccountId (accountid : Account)
  | Address (addr : XBtc.Address)
deriving DecidableEq, Repr

/-- `TxHandler::deposit`.  The source unwraps the input address with
`expect` (a panic); that case is modelled as an error return. -/
def deposit (s : BtcState Account)
    (accountOf : List Nat → Option (Account × List Nat))
    (tx_hash : Hash) (tx_info : TxInfo) : BtcState Account × Option String :=
  match s.inputAddrFor tx_hash with
  | none => (s, some "must set input addr before; modelled panic")
  | some input_addr =>
    match parse_deposit_outputs s accountOf tx_info.raw_tx with
    | Except.error e => (s, some e)
    | Except.ok (account_info, deposit_balance, original) =>
      let p1 : BtcState Account × DepositAccountInfo Account :=
        match account_info with
        | some ac =>
          let s0 := remove_pending_deposit s input_addr ac.1
          let s0b := update_binding s0 ac.1 ac.2 input_addr
          (s0b, DepositAccountInfo.AccountId ac.1)
        | none =>
          match s.addressMap input_addr with
          | some ac => (s, DepositAccountInfo.AccountId ac.1)
          | none => (s, DepositAccountInfo.Address input_addr)
      let p2 : BtcState Account × Account :=
        match p1.2 with
        | DepositAccountInfo.AccountId accountid =>
          if deposit_balance > 0 then
            (deposit_token p1.1 accountid deposit_balance, accountid)
          else (p1.1, accountid)
        | DepositAccountInfo.Address addr =>
          if deposit_balance > 0 then
            (insert_pending_deposit p1.1 addr tx_hash deposit_balance, default)
          else (p1.1, default)
      (deposit_event p2.1
        (BtcEvent.Deposit p2.2 deposit_balance input_addr tx_hash), none)

/-- Modelled from the spec: `ensure_identical` of the absent `tx/utils.rs`
requires the confirmed transaction to be identical to the proposal
field-by-field modulo the signature witness data of its inputs. -/
def ensure_identical (tx1 tx2 : BTransaction) : Bool :=
  decide (tx1.version = tx2.version ∧ tx1.lock_time = tx2.lock_time
    ∧ tx1.outputs = tx2.outputs
    ∧ (tx1.inputs.map fun i => (i.previous_output, i.sequence))
      = (tx2.inputs.map fun i => (i.previous_output, i.sequence)))

/-- Modelled from the spec: `xrecords::Module::withdrawal_finish` (absent from
src/) marks the application as Finished. -/
def withdrawal_finish (s : BtcState Account) (number : Nat) : BtcState Account :=
  { s with appFinished := fun n => if n = number then true else s.appFinished n }

/-- The per-id step of the matching branch of `TxHandler::withdraw`. -/
def withdraw_finish_step (tx_hash : Hash) (st : BtcState Account) (number : Nat) :
    BtcState Account :=
  deposit_event (withdrawal_finish st number) (BtcEvent.Withdrawal number tx_hash)

/-- `TxHandler::withdraw`: take the proposal; on a match mark every listed
application Finished (the slot stays cleared); on a mismatch put the proposal
back, emit the fatal event, latch the withdrawal-disabled switch and fail; a
withdrawal with no proposal emits the fatal event and latches the switch. -/
def withdraw (s : BtcState Account) (tx_hash : Hash) (tx_info : TxInfo) :
    BtcState Account × Option String :=
  match s.currentWithdrawalProposal with
  | some proposal =>
    let s0 := { s with currentWithdrawalProposal := none }
    if ensure_identical tx_info.raw_tx proposal.tx then
      (proposal.withdrawal_id_list.foldl (withdraw_finish_step tx_hash) s0, none)
    else
      let s1 := { s0 with currentWithdrawalProposal := some proposal }
      let s2 := deposit_event s1 (BtcEvent.WithdrawalFatalErr tx_hash)
      let s3 := { s2 with switchXbtc := true }
      (s3, some "tx mismatch with the proposal")
  | none =>
    let s1 := deposit_event s (BtcEvent.WithdrawalFatalErr tx_hash)
    let s2 := { s1 with switchXbtc := true }
    (s2, none)

/-- `Builder::build_p2pkh` / `build_p2sh` of the external script crate,
selected by the address kind and represented by the destination address. -/
def buildAddressScript (addr : Address) : ScriptInfo :=
  ScriptInfo.pay addr

/-- Modelled from the spec and the identical cxrml `select_utxo` in src/: the
xrml `tx/mod.rs` defining `select_utxo` is absent from src/. -/
def xbtc_select_utxo (utxoSet : Nat → CBtc.UTXO) (utxoMaxIndex : Nat)
    (balance : Nat) : Option (List CBtc.UTXO) :=
  CBtc.select_utxo_aux utxoSet balance utxoMaxIndex 0 []

/-- The loop of `Proposal::create_proposal` over the withdrawal record
indexes, accumulating (tx outputs, outs, out_balance); `verifyAddr` stands for
`Module::verify_btc_address` of the absent `lib.rs` (base58 decoding of the
stored destination). -/
def create_proposal_loop (applicationMap : Nat → Option Application)
    (verifyAddr : List Nat → Option Address) (fee : Nat) :
    List Nat → List BTxOutput → List Nat → Nat →
    Except String (List BTxOutput × List Nat × Nat)
  | [], outputs, outs, bal => Except.ok (outputs, outs, bal)
  | index :: rest, outputs, outs, bal =>
    match applicationMap index with
    | none => Except.error "not get record for this key"
    | some r =>
      match verifyAddr r.addr with
      | none => Except.error "parse addr error"
      | some addr =>
        let script := buildAddressScript addr
        let outputs2 :=
          if r.balance > fee then outputs ++ [⟨r.balance - fee, script⟩]
          else outputs
        create_proposal_loop applicationMap verifyAddr fee rest outputs2
          (outs ++ [index]) (bal + r.balance)

/-- `Proposal::create_proposal`: resolve every application, build its output
(skipping those not covering the fee), select UTXOs for the total, build the
inputs, append a change output paying the trustee when the inputs overshoot,
and store the candidate in the `TxProposal` slot. -/
def create_proposal (s : BtcState Account) (verifyAddr : List Nat → Option Address)
    (withdrawal_record_indexs : List Nat) (fee : Nat) :
    BtcState Account × Option String :=
  match create_proposal_loop s.applicationMap verifyAddr fee
      withdrawal_record_indexs [] [] 0 with
  | Except.error e => (s, some e)
  | Except.ok r =>
    let outputs := r.1
    let outs := r.2.1
    let out_balance := r.2.2
    match xbtc_select_utxo s.utxoSet s.utxoMaxIndex out_balance with
    | none => (s, some "lack of balance")
    | some utxo_set =>
      let inputs : List BTxInput :=
        utxo_set.map fun u => ⟨⟨u.txid, u.index⟩, [], 4294967295, []⟩
      let ins_balance : Nat := (utxo_set.map fun u => u.balance).sum
      let tx : BTransaction := ⟨1, inputs, outputs, 0⟩
      if ins_balance > out_balance + fee then
        match s.trusteeAddress with
        | none => (s, some "should set trustee_address first")
        | some trustee_address =>
          ({ s with txProposal := some ⟨{ tx with outputs :=
              tx.outputs ++ [⟨ins_balance - out_balance - fee,
                buildAddressScript trustee_address⟩] }, outs⟩ }, none)
      else ({ s with txProposal := some ⟨tx, outs⟩ }, none)

end XBtc

namespace XBtc

variable {Account : Type} [DecidableEq Account] [Inhabited Account]

lemma insert_pending_map (s : BtcState Account) (addr : Address) (txid : Hash)
    (balance : Nat) (a : Address) :
    (insert_pending_deposit s addr txid balance).pendingDepositMap a
      = if a = addr then
          some (match s.pendingDepositMap addr with
                | none => [⟨txid, balance⟩]
                | some list =>
                  if (⟨txid, balance⟩ : DepositCache) ∈ list then list
                  else list ++ [⟨txid, balance⟩])
        else s.pendingDepositMap a := by
  cases h : s.pendingDepositMap addr with
  | none => simp only [insert_pending_deposit, h]
  | some list =>
    simp only [insert_pending_deposit, h]

lemma insert_pending_other_fields (s : BtcState Account) (addr : Address)
    (txid : Hash) (balance : Nat) :
    (insert_pending_deposit s addr txid balance).inputAddrFor = s.inputAddrFor
    ∧ (insert_pending_deposit s addr txid balance).addressMap = s.addressMap
    ∧ (insert_pending_deposit s addr txid balance).currentWithdrawalProposal
        = s.currentWithdrawalProposal
    ∧ (insert_pending_deposit s addr txid balance).txProposal = s.txProposal
    ∧ (insert_pending_deposit s addr txid balance).switchXbtc = s.switchXbtc
    ∧ (insert_pending_deposit s addr txid balance).trusteeAddress = s.trusteeAddress
    ∧ (insert_pending_deposit s addr txid balance).applicationMap = s.applicationMap
    ∧ (insert_pending_deposit s addr txid balance).appFinished = s.appFinished
    ∧ (insert_pending_deposit s addr txid balance).xbtcBalance = s.xbtcBalance
    ∧ (insert_pending_deposit s addr txid balance).utxoSet = s.utxoSet
    ∧ (insert_pending_deposit s addr txid balance).utxoMaxIndex = s.utxoMaxIndex
    ∧ (insert_pending_deposit s addr txid balance).events = s.events := by
  cases h : s.pendingDepositMap addr with
  | none =>
    simp only [insert_pending_deposit, h]
    repeat' apply And.intro
    all_goals trivial
  | some list =>
    simp only [insert_pending_deposit, h]
    repeat' apply And.intro
    all_goals trivial

/-- C10: inserting the same pending deposit (same txid and balance) for an
address twice leaves the cache equal to inserting it once, and the per-address
lists stay duplicate-free, so a replayed unbound deposit transaction is
credited only once when the binding later replays the cache. -/
theorem c10_insert_pending_deposit_dedup (s : BtcState Account) (addr : Address)
    (txid : Hash) (balance : Nat)
    (hnd : ∀ a l, s.pendingDepositMap a = some l → l.Nodup) :
    insert_pending_deposit (insert_pending_deposit s addr txid balance)
        addr txid balance
      = insert_pending_deposit s addr txid balance
    ∧ ∀ a l,
        (insert_pending_deposit s addr txid balance).pendingDepositMap a = some l →
          l.Nodup := by
  constructor
  · apply BtcState.ext
    case inputAddrFor => rw [(insert_pending_other_fields _ _ _ _).1,
      (insert_pending_other_fields _ _ _ _).1]
    case addressMap => rw [(insert_pending_other_fields _ _ _ _).2.1,
      (insert_pending_other_fields _ _ _ _).2.1]
    case currentWithdrawalProposal => rw [(insert_pending_other_fields _ _ _ _).2.2.1,
      (insert_pending_other_fields _ _ _ _).2.2.1]
    case txProposal => rw [(insert_pending_other_fields _ _ _ _).2.2.2.1,
      (insert_pending_other_fields _ _ _ _).2.2.2.1]
    case switchXbtc => rw [(insert_pending_other_fields _ _ _ _).2.2.2.2.1,
      (insert_pending_other_fields _ _ _ _).2.2.2.2.1]
    case trusteeAddress => rw [(insert_pending_other_fields _ _ _ _).2.2.2.2.2.1,
      (insert_pending_other_fields _ _ _ _).2.2.2.2.2.1]
    case applicationMap => rw [(insert_pending_other_fields _ _ _ _).2.2.2.2.2.2.1,
      (insert_pending_other_fields _ _ _ _).2.2.2.2.2.2.1]
    case appFinished => rw [(insert_pending_other_fields _ _ _ _).2.2.2.2.2.2.2.1,
      (insert_pending_other_fields _ _ _ _).2.2.2.2.2.2.2.1]
    case xbtcBalance => rw [(insert_pending_other_fields _ _ _ _).2.2.2.2.2.2.2.2.1,
      (insert_pending_other_fields _ _ _ _).2.2.2.2.2.2.2.2.1]
    case utxoSet => rw [(insert_pending_other_fields _ _ _ _).2.2.2.2.2.2.2.2.2.1,
      (insert_pending_other_fields _ _ _ _).2.2.2.2.2.2.2.2.2.1]
    case utxoMaxIndex => rw [(insert_pending_other_fields _ _ _ _).2.2.2.2.2.2.2.2.2.2.1,
      (insert_pending_other_fields _ _ _ _).2.2.2.2.2.2.2.2.2.2.1]
    case events => rw [(insert_pending_other_fields _ _ _ _).2.2.2.2.2.2.2.2.2.2.2,
      (insert_pending_other_fields _ _ _ _).2.2.2.2.2.2.2.2.2.2.2]
    case pendingDepositMap =>
      funext a
      by_cases ha : a = addr
      · subst ha
        simp only [insert_pending_map, eq_self_iff_true, if_true]
        cases h : s.pendingDepositMap a with
        | none => simp
        | some list =>
          by_cases hm : (⟨txid, balance⟩ : DepositCache) ∈ list
          · simp [hm]
          · simp [hm]
      · simp only [insert_pending_map, if_neg ha]
  · intro a l hl
    rw [insert_pending_map] at hl
    by_cases ha : a = addr
    · rw [if_pos ha] at hl
      cases h : s.pendingDepositMap addr with
      | none =>
        rw [h] at hl
        simp only [Option.some_inj] at hl
        subst hl
        exact List.nodup_singleton _
      | some list =>
        rw [h] at hl
        simp only [Option.some_inj] at hl
        by_cases hm : (⟨txid, balance⟩ : DepositCache) ∈ list
        · rw [if_pos hm] at hl
          subst hl
          exact hnd addr list h
        · rw [if_neg hm] at hl
          subst hl
          simp only [List.nodup_append, List.nodup_singleton, true_and,
            List.disjoint_singleton]
          exact ⟨hnd addr list h, hm⟩
    · rw [if_neg ha] at hl
      exact hnd a l hl

/-- Witness for C10 at a concrete state: one cached entry, re-inserted. -/
def wBtcState : BtcState Bool :=
  { inputAddrFor := fun _ => none
    addressMap := fun _ => none
    pendingDepositMap := fun a =>
      if a = ⟨AddrKind.P2PKH, 5⟩ then some [⟨11, 100⟩] else none
    currentWithdrawalProposal := none
    txProposal := none
    switchXbtc := false
    trusteeAddress := some ⟨AddrKind.P2SH, 77⟩
    applicationMap := fun _ => none
    appFinished := fun _ => false
    xbtcBalance := fun _ => 0
    utxoSet := fun _ => CBtc.defaultUTXO
    utxoMaxIndex := 0
    events := [] }

/-- Witness for C10: re-inserting the already cached entry changes nothing. -/
theorem c10_insert_pending_deposit_dedup_witness :
    insert_pending_deposit
        (insert_pending_deposit wBtcState ⟨AddrKind.P2PKH, 5⟩ 11 100)
        ⟨AddrKind.P2PKH, 5⟩ 11 100
      = insert_pending_deposit wBtcState ⟨AddrKind.P2PKH, 5⟩ 11 100 :=
  (c10_insert_pending_deposit_dedup wBtcState ⟨AddrKind.P2PKH, 5⟩ 11 100
    (by intro a l hl
        by_cases ha : a = ⟨AddrKind.P2PKH, 5⟩ <;>
          simp [wBtcState, ha] at hl <;> simp [← hl])).1

end XBtc

namespace XBtc

variable {Account : Type} [DecidableEq Account] [Inhabited Account]

lemma withdraw_fold_finish (tx_hash : Hash) (ids : List Nat) :
    ∀ (st : BtcState Account) (id : Nat),
      (id ∈ ids ∨ st.appFinished id = true) →
      (ids.foldl (withdraw_finish_step tx_hash) st).appFinished id = true := by
  induction ids with
  | nil =>
    intro st id h
    rcases h with h | h
    · exact absurd h (List.not_mem_nil id)
    · exact h
  | cons n rest ih =>
    intro st id h
    rw [List.foldl_cons]
    apply ih
    rcases h with h | h
    · rcases List.mem_cons.mp h with h | h
      · subst h
        right
        simp [withdraw_finish_step, deposit_event, withdrawal_finish]
      · left
        exact h
    · right
      simp only [withdraw_finish_step, deposit_event, withdrawal_finish]
      by_cases hn : id = n
      · simp [hn]
      · simp [hn, h]

lemma withdraw_fold_slot (tx_hash : Hash) (ids : List Nat) :
    ∀ st : BtcState Account,
      (ids.foldl (withdraw_finish_step tx_hash) st).currentWithdrawalProposal
        = st.currentWithdrawalProposal := by
  induction ids with
  | nil => intro st; rfl
  | cons n rest ih =>
    intro st
    rw [List.foldl_cons, ih]
    rfl

/-- C4: handling a confirmed Withdrawal transaction while a proposal is
outstanding: when the transaction matches the proposal modulo signature
witness data, every listed application id is marked Finished and the proposal
slot stays cleared; when it does not match, the proposal is put back, the
fatal event is emitted, the global withdrawal-disabled switch `Switch.xbtc`
latches true, and the call fails. -/
theorem c4_withdrawal_match_or_fatal (s : BtcState Account) (tx_hash : Hash)
    (tx_info : TxInfo) (p : WithdrawalProposal)
    (hp : s.currentWithdrawalProposal = some p) :
    (ensure_identical tx_info.raw_tx p.tx = true →
      (withdraw s tx_hash tx_info).2 = none
      ∧ (withdraw s tx_hash tx_info).1.currentWithdrawalProposal = none
      ∧ ∀ id ∈ p.withdrawal_id_list,
          (withdraw s tx_hash tx_info).1.appFinished id = true)
    ∧ (ensure_identical tx_info.raw_tx p.tx = false →
      (withdraw s tx_hash tx_info).1.currentWithdrawalProposal = some p
      ∧ (withdraw s tx_hash tx_info).1.switchXbtc = true
      ∧ BtcEvent.WithdrawalFatalErr tx_hash ∈ (withdraw s tx_hash tx_info).1.events
      ∧ (withdraw s tx_hash tx_info).2.isSome = true) := by
  constructor
  · intro hid
    unfold withdraw
    rw [hp]
    simp only []
    rw [if_pos hid]
    refine ⟨rfl, ?_, ?_⟩
    · rw [withdraw_fold_slot]
    · intro id hmem
      exact withdraw_fold_finish tx_hash p.withdrawal_id_list _ id (Or.inl hmem)
  · intro hid
    unfold withdraw
    rw [hp]
    simp only []
    have hcond : ¬(ensure_identical tx_info.raw_tx p.tx = true) := by simp [hid]
    rw [if_neg hcond]
    refine ⟨rfl, rfl, ?_, rfl⟩
    simp [deposit_event]

/-- The proposal transaction of the C4 witness. -/
def ptxW4 : BTransaction := ⟨1, [], [], 0⟩

/-- The outstanding proposal of the C4 witness, listing applications 1, 2. -/
def pW4 : WithdrawalProposal := ⟨ptxW4, [1, 2]⟩

/-- The C4 witness state: `wBtcState` with the proposal outstanding. -/
def sW4 : BtcState Bool := { wBtcState with currentWithdrawalProposal := some pW4 }

/-- Witness for C4: concrete matching and mismatching confirmations. -/
theorem c4_withdrawal_match_or_fatal_witness :
    ((withdraw sW4 9 ⟨ptxW4, BTxType.Withdrawal⟩).1.appFinished 1 = true
      ∧ (withdraw sW4 9 ⟨ptxW4, BTxType.Withdrawal⟩).1.currentWithdrawalProposal
          = none)
    ∧ ((withdraw sW4 9 ⟨⟨2, [], [], 0⟩, BTxType.Withdrawal⟩).1.currentWithdrawalProposal
          = some pW4
      ∧ (withdraw sW4 9 ⟨⟨2, [], [], 0⟩, BTxType.Withdrawal⟩).1.switchXbtc = true) :=
  ⟨⟨((c4_withdrawal_match_or_fatal sW4 9 ⟨ptxW4, BTxType.Withdrawal⟩ pW4 rfl).1
        (by decide)).2.2 1 (by decide),
    ((c4_withdrawal_match_or_fatal sW4 9 ⟨ptxW4, BTxType.Withdrawal⟩ pW4 rfl).1
        (by decide)).2.1⟩,
   ⟨((c4_withdrawal_match_or_fatal sW4 9 ⟨⟨2, [], [], 0⟩, BTxType.Withdrawal⟩ pW4 rfl).2
        (by decide)).1,
    ((c4_withdrawal_match_or_fatal sW4 9 ⟨⟨2, [], [], 0⟩, BTxType.Withdrawal⟩ pW4 rfl).2
        (by decide)).2.1⟩⟩

end XBtc

namespace XBtc

variable {Account : Type} [DecidableEq Account] [Inhabited Account]

/-- C3 (amended): `create_proposal` performs no exclusivity check on the
proposal slot: its outcome is independent of any outstanding proposal, its
failure paths (missing application record, unparsable address, insufficient
UTXO balance, missing trustee address) leave the state unchanged, and on
success it silently overwrites the slot with the newly built candidate. -/
theorem c3_create_proposal_overwrites_slot (s : BtcState Account)
    (verifyAddr : List Nat → Option Address) (idxs : List Nat) (fee : Nat) :
    (∀ e, (create_proposal s verifyAddr idxs fee).2 = some e →
        (create_proposal s verifyAddr idxs fee).1 = s)
    ∧ ((create_proposal s verifyAddr idxs fee).2 = none →
        ∃ cand, (create_proposal s verifyAddr idxs fee).1
          = { s with txProposal := some cand })
    ∧ ∀ p, (create_proposal { s with txProposal := p } verifyAddr idxs fee).2
        = (create_proposal s verifyAddr idxs fee).2 := by
  refine ⟨?_, ?_, ?_⟩
  · intro e he
    unfold create_proposal at he ⊢
    cases hl : create_proposal_loop s.applicationMap verifyAddr fee idxs [] [] 0 with
    | error e2 => simp only [hl]
    | ok r =>
      simp only [hl] at he ⊢
      cases hs : xbtc_select_utxo s.utxoSet s.utxoMaxIndex r.2.2 with
      | none => simp only [hs]
      | some utxo_set =>
        simp only [hs] at he ⊢
        by_cases hins : (utxo_set.map fun u => u.balance).sum > r.2.2 + fee
        · rw [if_pos hins] at he ⊢
          cases ht : s.trusteeAddress with
          | none => simp only [ht]
          | some ta =>
            rw [ht] at he
            simp only [] at he
            exact absurd he (by simp)
        · rw [if_neg hins] at he
          simp only [] at he
          exact absurd he (by simp)
  · intro he
    unfold create_proposal at he ⊢
    cases hl : create_proposal_loop s.applicationMap verifyAddr fee idxs [] [] 0 with
    | error e2 =>
      rw [hl] at he
      simp only [] at he
      exact absurd he (by simp)
    | ok r =>
      simp only [hl] at he ⊢
      cases hs : xbtc_select_utxo s.utxoSet s.utxoMaxIndex r.2.2 with
      | none =>
        rw [hs] at he
        simp only [] at he
        exact absurd he (by simp)
      | some utxo_set =>
        simp only [hs] at he ⊢
        by_cases hins : (utxo_set.map fun u => u.balance).sum > r.2.2 + fee
        · rw [if_pos hins] at he ⊢
          cases ht : s.trusteeAddress with
          | none =>
            rw [ht] at he
            simp only [] at he
            exact absurd he (by simp)
          | some ta =>
            simp only [ht]
            exact ⟨_, rfl⟩
        · rw [if_neg hins]
          exact ⟨_, rfl⟩
  · intro p
    unfold create_proposal
    simp only []
    cases hl : create_proposal_loop s.applicationMap verifyAddr fee idxs [] [] 0 with
    | error e => simp only [hl]
    | ok r =>
      simp only [hl]
      cases hs : xbtc_select_utxo s.utxoSet s.utxoMaxIndex r.2.2 with
      | none => simp only [hs]
      | some utxo_set =>
        simp only [hs]
        by_cases hins : (utxo_set.map fun u => u.balance).sum > r.2.2 + fee
        · rw [if_pos hins, if_pos hins]
          cases ht : s.trusteeAddress with
          | none => simp only [ht]
          | some ta => simp only [ht]
        · rw [if_neg hins, if_neg hins]

/-- The C3 counterexample state: a proposal is already outstanding in the
`TxProposal` slot and one unspent UTXO of balance 5 is tracked. -/
def cex3 : BtcState Bool :=
  { wBtcState with
    txProposal := some ⟨⟨1, [], [], 0⟩, [7]⟩
    utxoSet := fun i => if i = 0 then ⟨5, 0, 5, false⟩ else CBtc.defaultUTXO
    utxoMaxIndex := 1 }

/-- Counterexample for C3 as stated: with a proposal already stored,
`create_proposal` (empty application list, fee 5) returns Ok and silently
replaces the outstanding proposal with the newly built candidate instead of
failing with no mutation. -/
theorem c3_counterexample :
    (create_proposal cex3 (fun _ => none) [] 5).2 = none
    ∧ (create_proposal cex3 (fun _ => none) [] 5).1.txProposal
        = some ⟨⟨1, [⟨⟨5, 0⟩, [], 4294967295, []⟩], [], 0⟩, []⟩
    ∧ cex3.txProposal = some ⟨⟨1, [], [], 0⟩, [7]⟩ :=
  ⟨rfl, rfl, rfl⟩

/-- Witness for the amended C3: the concrete successful call of the
counterexample state indeed ends with the slot holding a freshly built
candidate. -/
theorem c3_create_proposal_overwrites_slot_witness :
    ∃ cand, (create_proposal cex3 (fun _ => none) [] 5).1
      = { cex3 with txProposal := some cand } :=
  (c3_create_proposal_overwrites_slot cex3 (fun _ => none) [] 5).2.1 rfl

end XBtc

namespace XBtc

variable {Account : Type} [DecidableEq Account] [Inhabited Account]

lemma remove_pending_fold_pending (who : Account) (ia : Address)
    (record : List DepositCache) :
    ∀ st : BtcState Account,
      (record.foldl (remove_pending_step who ia) st).pendingDepositMap
        = st.pendingDepositMap := by
  induction record with
  | nil => intro st; rfl
  | cons r rest ih =>
    intro st
    rw [List.foldl_cons, ih]
    rfl

lemma remove_pending_fold_address (who : Account) (ia : Address)
    (record : List DepositCache) :
    ∀ st : BtcState Account,
      (record.foldl (remove_pending_step who ia) st).addressMap = st.addressMap := by
  induction record with
  | nil => intro st; rfl
  | cons r rest ih =>
    intro st
    rw [List.foldl_cons, ih]
    rfl

lemma remove_pending_fold_xbtc (who : Account) (ia : Address)
    (record : List DepositCache) :
    ∀ st : BtcState Account,
      (record.foldl (remove_pending_step who ia) st).xbtcBalance who
        = st.xbtcBalance who + (record.map fun r => r.balance).sum := by
  induction record with
  | nil => intro st; simp
  | cons r rest ih =>
    intro st
    rw [List.foldl_cons, ih]
    have hstep : (remove_pending_step who ia st r).xbtcBalance who
        = st.xbtcBalance who + r.balance := by
      simp [remove_pending_step, deposit_event, deposit_token]
    rw [hstep]
    simp [List.sum_cons]
    omega

/-- C7: a confirmed deposit paying the trustee whose sending address has no
resolvable bound account credits nothing and stashes the amount in the
pending-deposit cache under the sending address; a later transaction carrying
an OP_RETURN binding from the same address credits every cached amount to the
newly bound account and removes the cache entry for the address. -/
theorem c7_pending_deposit_cache :
    (∀ (s : BtcState Account) (accountOf : List Nat → Option (Account × List Nat))
        (tx_hash : Hash) (tx_info : TxInfo) (addr : Address) (b : Nat)
        (orig : List Nat),
      s.inputAddrFor tx_hash = some addr →
      parse_deposit_outputs s accountOf tx_info.raw_tx = Except.ok (none, b, orig) →
      s.addressMap addr = none →
      0 < b →
      s.pendingDepositMap addr = none →
      (deposit s accountOf tx_hash tx_info).1.xbtcBalance = s.xbtcBalance
      ∧ (deposit s accountOf tx_hash tx_info).1.pendingDepositMap addr
          = some [⟨tx_hash, b⟩]
      ∧ (deposit s accountOf tx_hash tx_info).2 = none)
    ∧ (∀ (s : BtcState Account) (accountOf : List Nat → Option (Account × List Nat))
        (tx_hash : Hash) (tx_info : TxInfo) (addr : Address) (acct : Account)
        (chan : List Nat) (b : Nat) (orig : List Nat) (caches : List DepositCache),
      s.inputAddrFor tx_hash = some addr →
      parse_deposit_outputs s accountOf tx_info.raw_tx
        = Except.ok (some (acct, chan), b, orig) →
      s.pendingDepositMap addr = some caches →
      (deposit s accountOf tx_hash tx_info).1.pendingDepositMap addr = none
      ∧ (deposit s accountOf tx_hash tx_info).1.xbtcBalance acct
          = s.xbtcBalance acct + (caches.map fun c => c.balance).sum
            + (if 0 < b then b else 0)
      ∧ (deposit s accountOf tx_hash tx_info).1.addressMap addr
          = some (acct, chan)
      ∧ (deposit s accountOf tx_hash tx_info).2 = none) := by
  constructor
  · intro s accountOf tx_hash tx_info addr b orig hin hparse hmap hb hpd
    unfold deposit
    rw [hin]
    simp only []
    rw [hparse]
    simp only []
    rw [hmap]
    simp only []
    rw [if_pos hb]
    refine ⟨?_, ?_, by trivial⟩
    · show (deposit_event (insert_pending_deposit s addr tx_hash b) _).xbtcBalance
        = s.xbtcBalance
      have h1 : (deposit_event (insert_pending_deposit s addr tx_hash b)
          (BtcEvent.Deposit default b addr tx_hash)).xbtcBalance
          = (insert_pending_deposit s addr tx_hash b).xbtcBalance := rfl
      rw [h1, (insert_pending_other_fields s addr tx_hash b).2.2.2.2.2.2.2.2.1]
    · show (deposit_event (insert_pending_deposit s addr tx_hash b)
          _).pendingDepositMap addr = some [⟨tx_hash, b⟩]
      have h1 : (deposit_event (insert_pending_deposit s addr tx_hash b)
          (BtcEvent.Deposit default b addr tx_hash)).pendingDepositMap
          = (insert_pending_deposit s addr tx_hash b).pendingDepositMap := rfl
      rw [h1, insert_pending_map, if_pos rfl, hpd]
  · intro s accountOf tx_hash tx_info addr acct chan b orig caches hin hparse hpd
    unfold deposit
    rw [hin]
    simp only []
    rw [hparse]
    simp only []
    have hrp : (remove_pending_deposit s addr acct).pendingDepositMap addr = none := by
      unfold remove_pending_deposit
      rw [hpd]
      simp
    have hrx : (remove_pending_deposit s addr acct).xbtcBalance acct
        = s.xbtcBalance acct + (caches.map fun c => c.balance).sum := by
      unfold remove_pending_deposit
      rw [hpd]
      simp only []
      rw [remove_pending_fold_xbtc]
    by_cases hb : 0 < b
    · rw [if_pos hb, if_pos hb]
      refine ⟨?_, ?_, ?_, by trivial⟩
      · show (deposit_event (deposit_token (update_binding
            (remove_pending_deposit s addr acct) acct chan addr) acct b)
            _).pendingDepositMap addr = none
        have h1 : (deposit_event (deposit_token (update_binding
            (remove_pending_deposit s addr acct) acct chan addr) acct b)
            (BtcEvent.Deposit acct b addr tx_hash)).pendingDepositMap
            = (remove_pending_deposit s addr acct).pendingDepositMap := rfl
        rw [h1, hrp]
      · show (deposit_event (deposit_token (update_binding
            (remove_pending_deposit s addr acct) acct chan addr) acct b)
            _).xbtcBalance acct
            = s.xbtcBalance acct + (caches.map fun c => c.balance).sum + b
        have h1 : (deposit_event (deposit_token (update_binding
            (remove_pending_deposit s addr acct) acct chan addr) acct b)
            (BtcEvent.Deposit acct b addr tx_hash)).xbtcBalance acct
            = (remove_pending_deposit s addr acct).xbtcBalance acct + b := by
          simp [deposit_event, deposit_token, update_binding]
        rw [h1, hrx]
      · show (deposit_event (deposit_token (update_binding
            (remove_pending_deposit s addr acct) acct chan addr) acct b)
            _).addressMap addr = some (acct, chan)
        have h1 : (deposit_event (deposit_token (update_binding
            (remove_pending_deposit s addr acct) acct chan addr) acct b)
            (BtcEvent.Deposit acct b addr tx_hash)).addressMap
            = (update_binding (remove_pending_deposit s addr acct)
                acct chan addr).addressMap := rfl
        rw [h1]
        simp [update_binding]
    · rw [if_neg hb, if_neg hb]
      refine ⟨?_, ?_, ?_, by trivial⟩
      · show (deposit_event (update_binding
            (remove_pending_deposit s addr acct) acct chan addr)
            _).pendingDepositMap addr = none
        have h1 : (deposit_event (update_binding
            (remove_pending_deposit s addr acct) acct chan addr)
            (BtcEvent.Deposit acct b addr tx_hash)).pendingDepositMap
            = (remove_pending_deposit s addr acct).pendingDepositMap := rfl
        rw [h1, hrp]
      · show (deposit_event (update_binding
            (remove_pending_deposit s addr acct) acct chan addr)
            _).xbtcBalance acct
            = s.xbtcBalance acct + (caches.map fun c => c.balance).sum + 0
        have h1 : (deposit_event (update_binding
            (remove_pending_deposit s addr acct) acct chan addr)
            (BtcEvent.Deposit acct b addr tx_hash)).xbtcBalance acct
            = (remove_pending_deposit s addr acct).xbtcBalance acct := rfl
        rw [h1, hrx]
        omega
      · show (deposit_event (update_binding
            (remove_pending_deposit s addr acct) acct chan addr)
            _).addressMap addr = some (acct, chan)
        have h1 : (deposit_event (update_binding
            (remove_pending_deposit s addr acct) acct chan addr)
            (BtcEvent.Deposit acct b addr tx_hash)).addressMap
            = (update_binding (remove_pending_deposit s addr acct)
                acct chan addr).addressMap := rfl
        rw [h1]
        simp [update_binding]

end XBtc

namespace XBtc

/-- The C7 witness state: trustee set, no bindings, empty cache; transactions
21 and 22 both come from the address (P2PKH, 5). -/
def s7 : BtcState Bool :=
  { wBtcState with
    pendingDepositMap := fun _ => none
    inputAddrFor := fun h =>
      if h = 21 ∨ h = 22 then some ⟨AddrKind.P2PKH, 5⟩ else none }

/-- The C7 witness OP_RETURN decoder: payload `[42]` binds account `true`
over channel `[1]`. -/
def accountOf7 : List Nat → Option (Bool × List Nat) :=
  fun payload => if payload = [42] then some (true, [1]) else none

/-- The unbound C7 deposit: 5000000 satoshi paid to the trustee address. -/
def tx7a : TxInfo :=
  ⟨⟨1, [], [⟨5000000, ScriptInfo.pay ⟨AddrKind.P2SH, 77⟩⟩], 0⟩, BTxType.Deposit⟩

/-- The later C7 binding transaction: one OP_RETURN output with payload
`[42]`. -/
def tx7b : TxInfo :=
  ⟨⟨1, [], [⟨0, ScriptInfo.nullData [42]⟩], 0⟩, BTxType.Deposit⟩

/-- The state after the unbound deposit of the C7 witness. -/
def s8 : BtcState Bool := (deposit s7 accountOf7 21 tx7a).1

/-- Witness for C7: the concrete unbound deposit is cached and credits
nothing; the concrete later binding credits the cached 5000000 and clears the
cache entry. -/
theorem c7_pending_deposit_cache_witness :
    ((deposit s7 accountOf7 21 tx7a).1.xbtcBalance = s7.xbtcBalance
      ∧ (deposit s7 accountOf7 21 tx7a).1.pendingDepositMap ⟨AddrKind.P2PKH, 5⟩
          = some [⟨21, 5000000⟩]
      ∧ (deposit s7 accountOf7 21 tx7a).2 = none)
    ∧ ((deposit s8 accountOf7 22 tx7b).1.pendingDepositMap ⟨AddrKind.P2PKH, 5⟩
          = none
      ∧ (deposit s8 accountOf7 22 tx7b).1.xbtcBalance true
          = s8.xbtcBalance true
            + (([⟨21, 5000000⟩] : List DepositCache).map fun c => c.balance).sum
            + (if 0 < 0 then 0 else 0)
      ∧ (deposit s8 accountOf7 22 tx7b).1.addressMap ⟨AddrKind.P2PKH, 5⟩
          = some (true, [1])
      ∧ (deposit s8 accountOf7 22 tx7b).2 = none) :=
  ⟨(c7_pending_deposit_cache.1 s7 accountOf7 21 tx7a ⟨AddrKind.P2PKH, 5⟩
      5000000 [] rfl rfl rfl (by decide) rfl),
   (c7_pending_deposit_cache.2 s8 accountOf7 22 tx7b ⟨AddrKind.P2PKH, 5⟩
      true [1] 0 [42] [⟨21, 5000000⟩] rfl rfl rfl)⟩

end XBtc
